import Mathlib

/-!
Verification of the Notion MCP adapter (`src/server.py`).

The development shallowly embeds the adapter: JSON values are an inductive
type whose objects are ordered association lists (CPython dicts preserve
insertion order), each `NotionMCPServer` method is embedded as the request
it builds, the `call_tool` handler is a total function from an invocation
and an upstream-behaviour oracle to the list of text-content items it
returns, and `json.dumps(x, indent=2)` is embedded as an executable
pretty-printer together with a JSON parser used to state the round-trip
property.
-/

/-- JSON values as decoded by Python's `json` module: objects are ordered
key/value lists (insertion order preserved), numbers are modelled as
integers. -/
inductive Json where
  | null : Json
  | bool : Bool → Json
  | num : Int → Json
  | str : String → Json
  | arr : List Json → Json
  | obj : List (String × Json) → Json

/-- Python truthiness (`if x:`) of a decoded JSON value: `None`, `False`,
`0`, `""`, `[]` and `{}` are falsy, everything else is truthy. -/
def truthy : Json → Bool
  | .null => false
  | .bool b => b
  | .num n => n != 0
  | .str s => !(s == "")
  | .arr xs => !xs.isEmpty
  | .obj kvs => !kvs.isEmpty

/-- Dictionary lookup (`d[k]` / `d.get(k)`): first binding of the key.
Decoded JSON objects never carry duplicate keys. -/
def jlookup : List (String × Json) → String → Option Json
  | [], _ => none
  | (k, v) :: rest, key => if k = key then some v else jlookup rest key

/-- Python `d[k] = v`: replace the value in place if the key is present
(keeping its position), otherwise append the new binding. -/
def setKey : List (String × Json) → String → Json → List (String × Json)
  | [], k, v => [(k, v)]
  | (k0, v0) :: rest, k, v =>
    if k0 = k then (k0, v) :: rest else (k0, v0) :: setKey rest k v

/-- Python `base.update(upd)` for dicts: assign each binding of `upd`
in order into `base`. -/
def dictUpdate (base upd : List (String × Json)) : List (String × Json) :=
  upd.foldl (fun acc kv => setKey acc kv.1 kv.2) base

/-- Key lookup inside a JSON object value (`none` on non-objects). -/
def Json.getKey : Json → String → Option Json
  | .obj kvs, k => jlookup kvs k
  | _, _ => none

/-- First element of a JSON array value (`none` otherwise). -/
def Json.first : Json → Option Json
  | .arr (x :: _) => some x
  | _ => none

/-! ### Serialization: `json.dumps(x, indent=2)` -/

/-- Decimal digit character (`n` must be below 10). -/
def digitChar (n : Nat) : Char := Char.ofNat (48 + n)

/-- Decimal digits of a natural number, most significant first; the fuel
argument bounds the recursion and `natChars` supplies enough of it. -/
def natCharsAux : Nat → Nat → List Char
  | 0, _ => []
  | fuel + 1, n =>
    if n < 10 then [digitChar n]
    else natCharsAux fuel (n / 10) ++ [digitChar (n % 10)]

/-- Decimal representation of a natural number. -/
def natChars (n : Nat) : List Char := natCharsAux (n + 1) n

/-- Decimal representation of an integer, as printed by Python. -/
def intChars (n : Int) : List Char :=
  if n < 0 then '-' :: natChars n.natAbs else natChars n.natAbs

/-- Lowercase hexadecimal digit character (`n` must be below 16). -/
def hexDigitChar (n : Nat) : Char :=
  if n < 10 then Char.ofNat (48 + n) else Char.ofNat (87 + n)

/-- Four lowercase hex digits of `n` (taken modulo 2^16). -/
def hex4 (n : Nat) : List Char :=
  [hexDigitChar (n / 4096 % 16), hexDigitChar (n / 256 % 16),
   hexDigitChar (n / 16 % 16), hexDigitChar (n % 16)]

/-- Escaping of one character inside a JSON string literal, following
Python's `json.dumps` with its default `ensure_ascii=True`: the two-letter
escapes for quote, backslash and the common control characters, `\uXXXX`
for the remaining characters outside the printable ASCII range, and a
surrogate pair for characters above the basic multilingual plane. -/
def escChar (c : Char) : List Char :=
  if c = '\x22' then ['\x5c', '\x22']
  else if c = '\x5c' then ['\x5c', '\x5c']
  else if c = '\n' then ['\x5c', 'n']
  else if c = '\r' then ['\x5c', 'r']
  else if c = '\t' then ['\x5c', 't']
  else if c.toNat = 8 then ['\x5c', 'b']
  else if c.toNat = 12 then ['\x5c', 'f']
  else if c.toNat < 32 ∨ 126 < c.toNat then
    if c.toNat < 65536 then '\x5c' :: 'u' :: hex4 c.toNat
    else ('\x5c' :: 'u' :: hex4 (55296 + (c.toNat - 65536) / 1024)) ++
         ('\x5c' :: 'u' :: hex4 (56320 + (c.toNat - 65536) % 1024))
  else [c]

/-- Escaping of a JSON string body, character by character. -/
def escStr : List Char → List Char
  | [] => []
  | c :: cs => escChar c ++ escStr cs

/-- Indentation prefix at nesting depth `d` (2-space indentation). -/
def indentC (d : Nat) : List Char := List.replicate (2 * d) ' '

mutual

/-- Characters of `json.dumps(j, indent=2)` at nesting depth `d`. -/
def dumpsC : Json → Nat → List Char
  | .null, _ => ['n', 'u', 'l', 'l']
  | .bool true, _ => ['t', 'r', 'u', 'e']
  | .bool false, _ => ['f', 'a', 'l', 's', 'e']
  | .num n, _ => intChars n
  | .str s, _ => '\x22' :: (escStr s.data ++ ['\x22'])
  | .arr [], _ => ['[', ']']
  | .arr (x :: xs), d =>
    '[' :: '\n' :: (indentC (d + 1) ++
      (dumpsList x xs (d + 1) ++ '\n' :: (indentC d ++ [']'])))
  | .obj [], _ => ['\x7b', '\x7d']
  | .obj (kv :: kvs), d =>
    '\x7b' :: '\n' :: (indentC (d + 1) ++
      (dumpsMembers kv kvs (d + 1) ++ '\n' :: (indentC d ++ ['\x7d'])))
termination_by j _ => sizeOf j

/-- The comma-separated element lines of a non-empty array. -/
def dumpsList : Json → List Json → Nat → List Char
  | x, [], d => dumpsC x d
  | x, y :: ys, d =>
    dumpsC x d ++ ',' :: '\n' :: (indentC d ++ dumpsList y ys d)
termination_by x xs _ => 1 + sizeOf x + sizeOf xs

/-- The comma-separated `"key": value` lines of a non-empty object. -/
def dumpsMembers : (String × Json) → List (String × Json) → Nat → List Char
  | (k, v), [], d =>
    '\x22' :: (escStr k.data ++ '\x22' :: ':' :: ' ' :: dumpsC v d)
  | (k, v), kv :: kvs, d =>
    ('\x22' :: (escStr k.data ++ '\x22' :: ':' :: ' ' :: dumpsC v d)) ++
      ',' :: '\n' :: (indentC d ++ dumpsMembers kv kvs d)
termination_by kv kvs _ => 1 + sizeOf kv + sizeOf kvs

end

/-- `json.dumps(j, indent=2)`. -/
def dumps (j : Json) : String := String.mk (dumpsC j 0)

/-! ### Exceptions raised inside the handler -/

/-- The exception values that can reach the `except` clause of
`call_tool`: `KeyError` from a missing required argument, `ValueError`
from the unknown-tool branch, `TypeError` from `dict.update` on a
non-mapping, `httpx.HTTPStatusError` from `raise_for_status`, and the
httpx transport exceptions (timeouts, connection failures), carrying
their concrete class name. -/
inductive Exc where
  | keyError : String → Exc
  | valueError : String → Exc
  | typeError : String → Exc
  | httpStatusError : Nat → String → Exc
  | transportError : String → String → Exc

/-- `str(e)` for each exception. `str` of a `KeyError` is the `repr` of
the missing key, hence the surrounding single quotes. Modelled from the
spec: the message of the non-2xx failure raised by the client carries the
status code and the response body text (the spec treats the HTTP library
as an external collaborator with that contract). -/
def excStr : Exc → String
  | .keyError k => "'" ++ k ++ "'"
  | .valueError m => m
  | .typeError m => m
  | .httpStatusError s b => "HTTP error " ++ (String.mk (natChars s)) ++ ": " ++ b
  | .transportError _ m => m

/-- `type(e).__name__` for each exception. -/
def excName : Exc → String
  | .keyError _ => "KeyError"
  | .valueError _ => "ValueError"
  | .typeError _ => "TypeError"
  | .httpStatusError _ _ => "HTTPStatusError"
  | .transportError kind _ => kind

/-- The `{"error": str(e), "type": type(e).__name__}` object built by the
`except` clause of `call_tool`. -/
def errJson (e : Exc) : Json :=
  Json.obj [("error", Json.str (excStr e)), ("type", Json.str (excName e))]

/-! ### The HTTP client and the request each method builds -/

/-- HTTP method of an outbound request. -/
inductive Method where
  | get : Method
  | post : Method
  | patch : Method
deriving DecidableEq

/-- Endpoint of an outbound request under the fixed API base URL
`https://api.notion.com/v1`; path parameters carry the interpolated
argument value. -/
inductive Endpoint where
  | search : Endpoint
  | pages : Endpoint
  | page : Json → Endpoint
  | databaseQuery : Json → Endpoint
  | blockChildren : Json → Endpoint

/-- One outbound HTTP request: method, endpoint, optional JSON body, and
the headers the shared `httpx.AsyncClient` attaches to every request. -/
structure Request where
  method : Method
  endpoint : Endpoint
  body : Option Json
  headers : List (String × String)

/-- The Notion API version pinned by the adapter. -/
def NOTION_VERSION : String := "2022-06-28"

/-- The client-owned connection state: the bearer token and the headers
built from it in `NotionMCPServer.__init__`. -/
structure NotionMCPServer where
  token : String
  headers : List (String × String)

/-- `NotionMCPServer(token)`. -/
def mkServer (token : String) : NotionMCPServer :=
  { token := token,
    headers := [("Authorization", "Bearer " ++ token),
                ("Notion-Version", NOTION_VERSION),
                ("Content-Type", "application/json")] }

/-- `NotionMCPServer.search`: body omits `"query"` when the query is
falsy and carries an object-kind filter clause only when `filter_type`
is truthy. -/
def NotionMCPServer.searchReq (srv : NotionMCPServer)
    (query filter_type : Json) : Request :=
  let payload : List (String × Json) :=
    if truthy query then [("query", query)] else []
  let payload :=
    if truthy filter_type then
      setKey payload "filter"
        (Json.obj [("property", Json.str "object"), ("value", filter_type)])
    else payload
  { method := .post, endpoint := .search,
    body := some (Json.obj payload), headers := srv.headers }

/-- `NotionMCPServer.get_page`. -/
def NotionMCPServer.getPageReq (srv : NotionMCPServer) (page_id : Json) :
    Request :=
  { method := .get, endpoint := .page page_id,
    body := none, headers := srv.headers }

/-- The generated `"title"` property value of `create_page`. -/
def genTitleProp (title : Json) : Json :=
  Json.obj [("title",
    Json.arr [Json.obj [("text", Json.obj [("content", title)])]])]

/-- The `properties` object of the `create_page` payload: the generated
title property, updated in place with the caller-supplied mapping when
that argument is truthy. `dict.update` on a non-mapping raises (CPython
raises `TypeError`/`ValueError` depending on the value; the distinction
does not matter to the handler, which stringifies any exception). -/
def createPageProps (title properties : Json) :
    Except Exc (List (String × Json)) :=
  let base := [("title", genTitleProp title)]
  if truthy properties then
    match properties with
    | .obj kvs => .ok (dictUpdate base kvs)
    | _ => .error (.typeError "update argument is not a mapping")
  else .ok base

/-- `NotionMCPServer.create_page`. -/
def NotionMCPServer.createPageReq (srv : NotionMCPServer)
    (parent_id title properties : Json) : Except Exc Request :=
  (createPageProps title properties).map fun props =>
    { method := .post, endpoint := .pages,
      body := some (Json.obj
        [("parent", Json.obj [("page_id", parent_id)]),
         ("properties", Json.obj props)]),
      headers := srv.headers }

/-- `NotionMCPServer.update_page`. -/
def NotionMCPServer.updatePageReq (srv : NotionMCPServer)
    (page_id properties : Json) : Request :=
  { method := .patch, endpoint := .page page_id,
    body := some (Json.obj [("properties", properties)]),
    headers := srv.headers }

/-- `NotionMCPServer.query_database`: `"filter"` and `"sorts"` enter the
payload only when the corresponding argument is truthy. -/
def NotionMCPServer.queryDatabaseReq (srv : NotionMCPServer)
    (database_id filter_obj sorts : Json) : Request :=
  let payload : List (String × Json) := []
  let payload :=
    if truthy filter_obj then setKey payload "filter" filter_obj else payload
  let payload :=
    if truthy sorts then setKey payload "sorts" sorts else payload
  { method := .post, endpoint := .databaseQuery database_id,
    body := some (Json.obj payload), headers := srv.headers }

/-- `NotionMCPServer.get_block_children`. -/
def NotionMCPServer.getBlockChildrenReq (srv : NotionMCPServer)
    (block_id : Json) : Request :=
  { method := .get, endpoint := .blockChildren block_id,
    body := none, headers := srv.headers }

/-- `NotionMCPServer.append_block_children`. -/
def NotionMCPServer.appendBlockChildrenReq (srv : NotionMCPServer)
    (block_id children : Json) : Request :=
  { method := .patch, endpoint := .blockChildren block_id,
    body := some (Json.obj [("children", children)]),
    headers := srv.headers }

/-! ### Upstream behaviour and the uniform response handling -/

/-- What one HTTP round trip can yield: a decoded 2xx JSON body, a
non-2xx status with its response body text, or a transport-level failure
(timeout, connection failure) with the raising exception's class name and
message. -/
inductive UpstreamOutcome where
  | success : Json → UpstreamOutcome
  | httpError : Nat → String → UpstreamOutcome
  | netError : String → String → UpstreamOutcome

/-- Performing a built request: `response.raise_for_status()` turns a
non-2xx status into a raised `HTTPStatusError`, and transport failures
are raised by the client call itself. -/
def performRequest (upstream : Request → UpstreamOutcome) (req : Request) :
    Except Exc Json :=
  match upstream req with
  | .success j => .ok j
  | .httpError s b => .error (.httpStatusError s b)
  | .netError kind m => .error (.transportError kind m)

/-! ### Tool catalog -/

/-- One advertised tool: name, description and JSON-schema input shape. -/
structure Tool where
  name : String
  description : String
  inputSchema : Json

/-- The `list_tools` callback: the fixed catalog of the seven tools, in
declaration order. -/
def listTools : List Tool :=
  [{ name := "search_notion",
     description := "Search Notion workspace for pages and databases",
     inputSchema := Json.obj
       [("type", Json.str "object"),
        ("properties", Json.obj
          [("query", Json.obj
            [("type", Json.str "string"),
             ("description", Json.str "Search query")]),
           ("filter_type", Json.obj
            [("type", Json.str "string"),
             ("enum", Json.arr [Json.str "page", Json.str "database"]),
             ("description", Json.str "Filter by type (optional)")])])] },
   { name := "get_page",
     description := "Get a Notion page by ID",
     inputSchema := Json.obj
       [("type", Json.str "object"),
        ("properties", Json.obj
          [("page_id", Json.obj
            [("type", Json.str "string"),
             ("description", Json.str "The Notion page ID")])]),
        ("required", Json.arr [Json.str "page_id"])] },
   { name := "create_page",
     description := "Create a new Notion page",
     inputSchema := Json.obj
       [("type", Json.str "object"),
        ("properties", Json.obj
          [("parent_id", Json.obj
            [("type", Json.str "string"),
             ("description", Json.str "Parent page ID")]),
           ("title", Json.obj
            [("type", Json.str "string"),
             ("description", Json.str "Page title")]),
           ("properties", Json.obj
            [("type", Json.str "object"),
             ("description",
              Json.str "Additional page properties (optional)")])]),
        ("required", Json.arr [Json.str "parent_id", Json.str "title"])] },
   { name := "update_page",
     description := "Update a Notion page's properties",
     inputSchema := Json.obj
       [("type", Json.str "object"),
        ("properties", Json.obj
          [("page_id", Json.obj
            [("type", Json.str "string"),
             ("description", Json.str "The page ID to update")]),
           ("properties", Json.obj
            [("type", Json.str "object"),
             ("description", Json.str "Properties to update")])]),
        ("required",
         Json.arr [Json.str "page_id", Json.str "properties"])] },
   { name := "query_database",
     description := "Query a Notion database",
     inputSchema := Json.obj
       [("type", Json.str "object"),
        ("properties", Json.obj
          [("database_id", Json.obj
            [("type", Json.str "string"),
             ("description", Json.str "The database ID to query")]),
           ("filter", Json.obj
            [("type", Json.str "object"),
             ("description", Json.str "Filter object (optional)")]),
           ("sorts", Json.obj
            [("type", Json.str "array"),
             ("description", Json.str "Sort array (optional)")])]),
        ("required", Json.arr [Json.str "database_id"])] },
   { name := "get_block_children",
     description := "Get children blocks of a page or block",
     inputSchema := Json.obj
       [("type", Json.str "object"),
        ("properties", Json.obj
          [("block_id", Json.obj
            [("type", Json.str "string"),
             ("description", Json.str "The block or page ID")])]),
        ("required", Json.arr [Json.str "block_id"])] },
   { name := "append_blocks",
     description := "Append blocks to a page or block",
     inputSchema := Json.obj
       [("type", Json.str "object"),
        ("properties", Json.obj
          [("block_id", Json.obj
            [("type", Json.str "string"),
             ("description",
              Json.str "The block or page ID to append to")]),
           ("blocks", Json.obj
            [("type", Json.str "array"),
             ("description",
              Json.str "Array of block objects to append")])]),
        ("required", Json.arr [Json.str "block_id", Json.str "blocks"])] }]

/-! ### Dispatch and the `call_tool` handler -/

/-- `arguments[k]`: raises `KeyError(k)` when the key is missing. -/
def argReq (args : List (String × Json)) (k : String) : Except Exc Json :=
  match jlookup args k with
  | some v => .ok v
  | none => .error (.keyError k)

/-- `arguments.get(k, default)`; plain `arguments.get(k)` is this with
`None` (`Json.null`) as default. -/
def argGet (args : List (String × Json)) (k : String) (default : Json) :
    Json :=
  (jlookup args k).getD default

/-- The branch of `call_tool` that routes the invocation to a client
method and builds the single outbound request, or raises before any HTTP
call: `KeyError` for a missing required argument, `ValueError` for an
unknown tool name. -/
def dispatch (srv : NotionMCPServer) (name : String)
    (args : List (String × Json)) : Except Exc Request :=
  if name = "search_notion" then
    .ok (srv.searchReq (argGet args "query" (Json.str ""))
          (argGet args "filter_type" Json.null))
  else if name = "get_page" then
    (argReq args "page_id").map fun pid => srv.getPageReq pid
  else if name = "create_page" then do
    let parent ← argReq args "parent_id"
    let title ← argReq args "title"
    srv.createPageReq parent title (argGet args "properties" Json.null)
  else if name = "update_page" then do
    let pid ← argReq args "page_id"
    let props ← argReq args "properties"
    pure (srv.updatePageReq pid props)
  else if name = "query_database" then
    (argReq args "database_id").map fun dbid =>
      srv.queryDatabaseReq dbid (argGet args "filter" Json.null)
        (argGet args "sorts" Json.null)
  else if name = "get_block_children" then
    (argReq args "block_id").map fun bid => srv.getBlockChildrenReq bid
  else if name = "append_blocks" then do
    let bid ← argReq args "block_id"
    let blocks ← argReq args "blocks"
    pure (srv.appendBlockChildrenReq bid blocks)
  else .error (.valueError ("Unknown tool: " ++ name))

/-- One returned text-content item (`TextContent(type="text", text=...)`). -/
structure TextContent where
  type : String
  text : String

/-- The `call_tool` handler: dispatch, perform the single request, and
wrap either the decoded success body or the `{error, type}` object of the
caught exception as one pretty-printed text item. The embedding is total:
the `try/except` of the source catches every invocation-local failure. -/
def call_tool (srv : NotionMCPServer)
    (upstream : Request → UpstreamOutcome) (name : String)
    (args : List (String × Json)) : List TextContent :=
  match dispatch srv name args with
  | .error e => [{ type := "text", text := dumps (errJson e) }]
  | .ok req =>
    match performRequest upstream req with
    | .ok j => [{ type := "text", text := dumps j }]
    | .error e => [{ type := "text", text := dumps (errJson e) }]

/-- The outbound HTTP calls an invocation performs: exactly the one
request dispatch builds, and none when dispatch raises first. -/
def requestsIssued (srv : NotionMCPServer) (name : String)
    (args : List (String × Json)) : List Request :=
  match dispatch srv name args with
  | .ok req => [req]
  | .error _ => []

/-- The required argument names of each tool, in the evaluation order of
the corresponding `call_tool` branch. -/
def reqKeys (name : String) : List String :=
  if name = "search_notion" then []
  else if name = "get_page" then ["page_id"]
  else if name = "create_page" then ["parent_id", "title"]
  else if name = "update_page" then ["page_id", "properties"]
  else if name = "query_database" then ["database_id"]
  else if name = "get_block_children" then ["block_id"]
  else if name = "append_blocks" then ["block_id", "blocks"]
  else []

/-! ### Startup -/

/-- Result of `main`'s startup phase: either the process exits with a
non-zero status after printing a diagnostic to stderr (no catalog is
published), or the client is constructed and the server runs with it. -/
inductive StartupResult where
  | exited : Nat → String → StartupResult
  | started : NotionMCPServer → StartupResult

/-- The startup phase of `main`: read `NOTION_TOKEN` from the
environment; `if not token:` is taken when the variable is absent
(`None`) or holds the empty string. -/
def mainStartup (env : String → Option String) : StartupResult :=
  match env "NOTION_TOKEN" with
  | none => .exited 1 "Error: NOTION_TOKEN environment variable not set"
  | some t =>
    if t = "" then
      .exited 1 "Error: NOTION_TOKEN environment variable not set"
    else .started (mkServer t)

/-! ### A JSON parser, used to state the round-trip property -/

/-- JSON whitespace. -/
def isWsC (c : Char) : Bool := c == ' ' || c == '\n' || c == '\t' || c == '\r'

/-- Decimal digit test. -/
def isDig (c : Char) : Bool := 48 ≤ c.toNat && c.toNat ≤ 57

/-- Drop leading JSON whitespace. -/
def skipWs : List Char → List Char
  | [] => []
  | c :: cs => if isWsC c then skipWs cs else c :: cs

/-- Value of a hexadecimal digit character (either case). -/
def hexVal (c : Char) : Option Nat :=
  if 48 ≤ c.toNat ∧ c.toNat ≤ 57 then some (c.toNat - 48)
  else if 97 ≤ c.toNat ∧ c.toNat ≤ 102 then some (c.toNat - 87)
  else if 65 ≤ c.toNat ∧ c.toNat ≤ 70 then some (c.toNat - 55)
  else none

/-- Decode one escape sequence after a backslash inside a JSON string
literal: the short escapes, and `\uXXXX` (combining a surrogate pair into
one character); returns the decoded character and the remaining input. -/
def decodeEsc : List Char → Option (Char × List Char)
  | 'u' :: a :: b :: c1 :: d1 :: rest =>
    match hexVal a, hexVal b, hexVal c1, hexVal d1 with
    | some ha, some hb, some hc, some hd =>
      let h := 4096 * ha + 256 * hb + 16 * hc + hd
      if h < 55296 ∨ 57344 ≤ h then some (Char.ofNat h, rest)
      else if h < 56320 then
        match rest with
        | '\x5c' :: 'u' :: a2 :: b2 :: c2 :: d2 :: rest2 =>
          match hexVal a2, hexVal b2, hexVal c2, hexVal d2 with
          | some la, some lb, some lc, some ld =>
            let l := 4096 * la + 256 * lb + 16 * lc + ld
            if 56320 ≤ l ∧ l < 57344 then
              some (Char.ofNat (65536 + 1024 * (h - 55296) + (l - 56320)),
                rest2)
            else none
          | _, _, _, _ => none
        | _ => none
      else none
    | _, _, _, _ => none
  | e :: rest =>
    if e = '\x22' then some ('\x22', rest)
    else if e = '\x5c' then some ('\x5c', rest)
    else if e = '/' then some ('/', rest)
    else if e = 'n' then some ('\n', rest)
    else if e = 'r' then some ('\r', rest)
    else if e = 't' then some ('\t', rest)
    else if e = 'b' then some (Char.ofNat 8, rest)
    else if e = 'f' then some (Char.ofNat 12, rest)
    else none
  | [] => none

/-- Parse the body of a JSON string literal after its opening quote, up
to and including the closing quote. The fuel argument only bounds the
recursion; the callers supply enough of it. -/
def parseStrBody : Nat → List Char → Option (List Char × List Char)
  | 0, _ => none
  | fuel + 1, cs =>
    match cs with
    | [] => none
    | c :: rest =>
      if c = '\x22' then some ([], rest)
      else if c = '\x5c' then
        match decodeEsc rest with
        | some (ch, rest2) =>
          (parseStrBody fuel rest2).map fun p => (ch :: p.1, p.2)
        | none => none
      else (parseStrBody fuel rest).map fun p => (c :: p.1, p.2)

/-- Accumulate the value of a digit string, most significant first. -/
def digitsVal : List Char → Nat → Nat
  | [], acc => acc
  | c :: cs, acc => digitsVal cs (acc * 10 + (c.toNat - 48))

/-- Parse a non-empty run of leading decimal digits. -/
def parseNatNum (cs : List Char) : Option (Nat × List Char) :=
  match cs.takeWhile isDig with
  | [] => none
  | ds => some (digitsVal ds 0, cs.dropWhile isDig)

/-- Parse an integer literal (optional leading minus). -/
def parseNum : List Char → Option (Json × List Char)
  | [] => none
  | c :: rest =>
    if c = '-' then
      (parseNatNum rest).map fun p => (Json.num (-(p.1 : Int)), p.2)
    else
      (parseNatNum (c :: rest)).map fun p => (Json.num (p.1 : Int), p.2)

mutual

/-- Parse one JSON value after skipping leading whitespace. The fuel
argument only bounds recursion depth; `parse` supplies enough of it. -/
def parseVal : Nat → List Char → Option (Json × List Char)
  | 0, _ => none
  | fuel + 1, cs =>
    match skipWs cs with
    | [] => none
    | c :: rest =>
      if c = 'n' then
        match rest with
        | 'u' :: 'l' :: 'l' :: r => some (.null, r)
        | _ => none
      else if c = 't' then
        match rest with
        | 'r' :: 'u' :: 'e' :: r => some (.bool true, r)
        | _ => none
      else if c = 'f' then
        match rest with
        | 'a' :: 'l' :: 's' :: 'e' :: r => some (.bool false, r)
        | _ => none
      else if c = '\x22' then
        (parseStrBody fuel rest).map fun p => (.str (String.mk p.1), p.2)
      else if c = '[' then
        match skipWs rest with
        | [] => none
        | c2 :: r2 =>
          if c2 = ']' then some (.arr [], r2)
          else (parseItems fuel (c2 :: r2)).map fun p => (.arr p.1, p.2)
      else if c = '\x7b' then
        match skipWs rest with
        | [] => none
        | c2 :: r2 =>
          if c2 = '\x7d' then some (.obj [], r2)
          else (parseMembers fuel (c2 :: r2)).map fun p => (.obj p.1, p.2)
      else parseNum (c :: rest)

/-- Parse the elements of a non-empty array, consuming the closing
bracket. -/
def parseItems : Nat → List Char → Option (List Json × List Char)
  | 0, _ => none
  | fuel + 1, cs =>
    match parseVal fuel cs with
    | none => none
    | some (x, r) =>
      match skipWs r with
      | [] => none
      | c :: r2 =>
        if c = ',' then
          (parseItems fuel r2).map fun p => (x :: p.1, p.2)
        else if c = ']' then some ([x], r2)
        else none

/-- Parse the members of a non-empty object, consuming the closing
brace. -/
def parseMembers : Nat → List Char → Option (List (String × Json) × List Char)
  | 0, _ => none
  | fuel + 1, cs =>
    match cs with
    | [] => none
    | c :: r0 =>
      if c = '\x22' then
        match parseStrBody fuel r0 with
        | none => none
        | some (k, r1) =>
          match skipWs r1 with
          | [] => none
          | c1 :: r2 =>
            if c1 = ':' then
              match parseVal fuel r2 with
              | none => none
              | some (v, r3) =>
                match skipWs r3 with
                | [] => none
                | c2 :: r4 =>
                  if c2 = ',' then
                    (parseMembers fuel (skipWs r4)).map fun p =>
                      ((String.mk k, v) :: p.1, p.2)
                  else if c2 = '\x7d' then some ([(String.mk k, v)], r4)
                  else none
            else none
      else none

end

/-- Parse a complete JSON document: one value, with only whitespace
allowed after it. -/
def parse (s : String) : Option Json :=
  match parseVal (s.length + 1) s.data with
  | some (j, rest) =>
    match skipWs rest with
    | [] => some j
    | _ => none
  | none => none

/-! ### Dictionary lemmas -/

theorem jlookup_setKey_self (l : List (String × Json)) (k : String) (v : Json) :
    jlookup (setKey l k v) k = some v := by
  induction l with
  | nil => simp [setKey, jlookup]
  | cons kv rest ih =>
    obtain ⟨k0, v0⟩ := kv
    by_cases h : k0 = k
    · subst h; simp [setKey, jlookup]
    · simp [setKey, jlookup, h, ih]

theorem jlookup_setKey_ne (l : List (String × Json)) (k k2 : String) (v : Json)
    (h : k ≠ k2) : jlookup (setKey l k v) k2 = jlookup l k2 := by
  induction l with
  | nil => simp [setKey, jlookup, h]
  | cons kv rest ih =>
    obtain ⟨k0, v0⟩ := kv
    by_cases h0 : k0 = k
    · subst h0; simp [setKey, jlookup, h]
    · simp [setKey, jlookup, h0, ih]

theorem jlookup_dictUpdate_notMem (base upd : List (String × Json))
    (k : String) (h : k ∉ upd.map Prod.fst) :
    jlookup (dictUpdate base upd) k = jlookup base k := by
  induction upd generalizing base with
  | nil => rfl
  | cons kv rest ih =>
    obtain ⟨k0, v0⟩ := kv
    simp only [List.map_cons, List.mem_cons] at h
    push_neg at h
    have : dictUpdate base ((k0, v0) :: rest) =
        dictUpdate (setKey base k0 v0) rest := rfl
    rw [this, ih _ h.2, jlookup_setKey_ne _ _ _ _ (fun he => h.1 he.symm)]

theorem jlookup_dictUpdate_mem (base upd : List (String × Json))
    (k : String) (v : Json) (hnd : (upd.map Prod.fst).Nodup)
    (hmem : (k, v) ∈ upd) :
    jlookup (dictUpdate base upd) k = some v := by
  induction upd generalizing base with
  | nil => cases hmem
  | cons kv rest ih =>
    obtain ⟨k0, v0⟩ := kv
    simp only [List.map_cons, List.nodup_cons] at hnd
    have hstep : dictUpdate base ((k0, v0) :: rest) =
        dictUpdate (setKey base k0 v0) rest := rfl
    rcases List.mem_cons.mp hmem with heq | hrest
    · injection heq with hk hv
      subst hk; subst hv
      rw [hstep, jlookup_dictUpdate_notMem _ _ _ hnd.1,
        jlookup_setKey_self]
    · rw [hstep, ih _ hnd.2 hrest]

/-! ### Handler-shape lemmas -/

theorem call_tool_of_dispatch_error (srv : NotionMCPServer)
    (u : Request → UpstreamOutcome) (name : String)
    (args : List (String × Json)) (e : Exc)
    (h : dispatch srv name args = Except.error e) :
    call_tool srv u name args =
      [{ type := "text", text := dumps (errJson e) }] ∧
    requestsIssued srv name args = [] := by
  constructor
  · simp [call_tool, h]
  · simp [requestsIssued, h]

theorem dispatch_headers (srv : NotionMCPServer) (name : String)
    (args : List (String × Json)) (req : Request)
    (h : dispatch srv name args = Except.ok req) :
    req.headers = srv.headers := by
  unfold dispatch at h
  split at h
  · cases h; rfl
  · split at h
    · cases hp : argReq args "page_id" with
      | error e => simp [hp, Except.map] at h
      | ok v => simp [hp, Except.map] at h; cases h; rfl
    · split at h
      · cases hp : argReq args "parent_id" with
        | error e => simp [hp, bind, Except.bind] at h
        | ok v1 =>
          cases ht : argReq args "title" with
          | error e => simp [hp, ht, bind, Except.bind] at h
          | ok v2 =>
            simp only [bind, Except.bind, hp, ht] at h
            cases hc : createPageProps v2 (argGet args "properties" Json.null) with
            | error e => simp [NotionMCPServer.createPageReq, hc, Except.map] at h
            | ok props =>
              simp [NotionMCPServer.createPageReq, hc, Except.map] at h
              cases h; rfl
      · split at h
        · cases hp : argReq args "page_id" with
          | error e => simp [hp, bind, Except.bind] at h
          | ok v1 =>
            cases ht : argReq args "properties" with
            | error e => simp [hp, ht, bind, Except.bind] at h
            | ok v2 =>
              simp only [bind, Except.bind, hp, ht, pure, Except.pure] at h
              cases h; rfl
        · split at h
          · cases hp : argReq args "database_id" with
            | error e => simp [hp, Except.map] at h
            | ok v => simp [hp, Except.map] at h; cases h; rfl
          · split at h
            · cases hp : argReq args "block_id" with
              | error e => simp [hp, Except.map] at h
              | ok v => simp [hp, Except.map] at h; cases h; rfl
            · split at h
              · cases hp : argReq args "block_id" with
                | error e => simp [hp, bind, Except.bind] at h
                | ok v1 =>
                  cases ht : argReq args "blocks" with
                  | error e => simp [hp, ht, bind, Except.bind] at h
                  | ok v2 =>
                    simp only [bind, Except.bind, hp, ht, pure,
                      Except.pure] at h
                    cases h; rfl
              · simp at h

/-! ### Claims -/

/-- C1: every invocation of the tool-call handler — any operation name,
any argument mapping, any upstream behaviour — returns exactly one text
content item whose text is the pretty-printed JSON of either the decoded
success body or an object with keys `error` and `type`; no
invocation-local failure escapes the handler (the embedding of the
handler is a total function). -/
theorem call_tool_uniform_result (srv : NotionMCPServer)
    (u : Request → UpstreamOutcome) (name : String)
    (args : List (String × Json)) :
    ∃ j : Json,
      call_tool srv u name args = [{ type := "text", text := dumps j }] ∧
      ((∃ req, dispatch srv name args = Except.ok req ∧
          u req = UpstreamOutcome.success j) ∨
       (∃ msg ty, j = Json.obj
          [("error", Json.str msg), ("type", Json.str ty)])) := by
  cases hd : dispatch srv name args with
  | error e =>
    exact ⟨errJson e, by simp [call_tool, hd],
      Or.inr ⟨excStr e, excName e, rfl⟩⟩
  | ok req =>
    cases hu : u req with
    | success j =>
      exact ⟨j, by simp [call_tool, performRequest, hd, hu],
        Or.inl ⟨req, rfl, hu⟩⟩
    | httpError s b =>
      exact ⟨errJson (Exc.httpStatusError s b),
        by simp [call_tool, performRequest, hd, hu],
        Or.inr ⟨_, _, rfl⟩⟩
    | netError kind m =>
      exact ⟨errJson (Exc.transportError kind m),
        by simp [call_tool, performRequest, hd, hu],
        Or.inr ⟨_, _, rfl⟩⟩

/-- C2: searching with an empty argument mapping issues a search request
whose body has neither a `"query"` nor a `"filter"` key, and searching
with query `"x"` and filter_type `"page"` issues exactly the body
`{"query": "x", "filter": {"property": "object", "value": "page"}}`. -/
theorem search_payloads (srv : NotionMCPServer) :
    dispatch srv "search_notion" [] =
      Except.ok { method := .post, endpoint := .search,
                  body := some (Json.obj []), headers := srv.headers } ∧
    dispatch srv "search_notion"
        [("query", Json.str "x"), ("filter_type", Json.str "page")] =
      Except.ok { method := .post, endpoint := .search,
                  body := some (Json.obj
                    [("query", Json.str "x"),
                     ("filter", Json.obj
                       [("property", Json.str "object"),
                        ("value", Json.str "page")])]),
                  headers := srv.headers } :=
  ⟨rfl, rfl⟩

/-- C5: an invocation whose name matches no catalog entry produces a
failure Result with message `Unknown tool: {name}` and kind `ValueError`,
without issuing any HTTP request or reaching any client method. -/
theorem unknown_tool (srv : NotionMCPServer)
    (u : Request → UpstreamOutcome) (name : String)
    (args : List (String × Json))
    (h : name ∉ ["search_notion", "get_page", "create_page", "update_page",
                 "query_database", "get_block_children", "append_blocks"]) :
    dispatch srv name args =
      Except.error (Exc.valueError ("Unknown tool: " ++ name)) ∧
    call_tool srv u name args =
      [{ type := "text",
         text := dumps (Json.obj
           [("error", Json.str ("Unknown tool: " ++ name)),
            ("type", Json.str "ValueError")]) }] ∧
    requestsIssued srv name args = [] := by
  simp only [List.mem_cons, List.not_mem_nil, or_false, not_or] at h
  obtain ⟨h1, h2, h3, h4, h5, h6, h7⟩ := h
  have hd : dispatch srv name args =
      Except.error (Exc.valueError ("Unknown tool: " ++ name)) := by
    simp [dispatch, h1, h2, h3, h4, h5, h6, h7]
  refine ⟨hd, ?_, ?_⟩
  · exact (call_tool_of_dispatch_error srv u name args _ hd).1
  · exact (call_tool_of_dispatch_error srv u name args _ hd).2

/-- C5 witness: invoking `not_a_real_tool` with an empty mapping. -/
theorem unknown_tool_witness :
    dispatch (mkServer "t") "not_a_real_tool" [] =
      Except.error (Exc.valueError ("Unknown tool: " ++ "not_a_real_tool")) ∧
    call_tool (mkServer "t") (fun _ => UpstreamOutcome.success Json.null)
        "not_a_real_tool" [] =
      [{ type := "text",
         text := dumps (Json.obj
           [("error", Json.str ("Unknown tool: " ++ "not_a_real_tool")),
            ("type", Json.str "ValueError")]) }] ∧
    requestsIssued (mkServer "t") "not_a_real_tool" [] = [] :=
  unknown_tool (mkServer "t") (fun _ => UpstreamOutcome.success Json.null)
    "not_a_real_tool" [] (by decide)

/-- C7: the catalog is the fixed declaration-order sequence of the seven
tools, and each supported name has exactly one descriptor; the callback
is a constant of the embedding, so every call returns this identical
sequence. -/
theorem list_tools_catalog :
    listTools.map Tool.name =
      ["search_notion", "get_page", "create_page", "update_page",
       "query_database", "get_block_children", "append_blocks"] ∧
    (["search_notion", "get_page", "create_page", "update_page",
      "query_database", "get_block_children", "append_blocks"].all
        fun n => listTools.countP (fun t => t.name == n) == 1) = true :=
  ⟨rfl, rfl⟩

/-- C9: startup exits with status 1 and a diagnostic naming the missing
variable when `NOTION_TOKEN` is absent or empty (and then no server — and
hence no catalog — is ever started); with a non-empty token the server
starts, its connection headers are the Bearer/API-version/content-type
triple built from the token, and every request any dispatch builds
carries exactly those headers. -/
theorem startup_credential (env : String → Option String) (t : String) :
    ((env "NOTION_TOKEN" = none ∨ env "NOTION_TOKEN" = some "") →
      mainStartup env = StartupResult.exited 1
        "Error: NOTION_TOKEN environment variable not set" ∧
      ∀ srv, mainStartup env ≠ StartupResult.started srv) ∧
    (env "NOTION_TOKEN" = some t → t ≠ "" →
      mainStartup env = StartupResult.started (mkServer t) ∧
      (mkServer t).headers =
        [("Authorization", "Bearer " ++ t),
         ("Notion-Version", "2022-06-28"),
         ("Content-Type", "application/json")] ∧
      ∀ name args req, dispatch (mkServer t) name args = Except.ok req →
        req.headers = (mkServer t).headers) := by
  constructor
  · rintro (h | h)
    · exact ⟨by simp [mainStartup, h], by simp [mainStartup, h]⟩
    · exact ⟨by simp [mainStartup, h], by simp [mainStartup, h]⟩
  · intro h ht
    refine ⟨by simp [mainStartup, h, ht], rfl, ?_⟩
    intro name args req hreq
    exact dispatch_headers (mkServer t) name args req hreq

/-- C9 witness: an environment without the variable exits, one with a
non-empty token starts the client. -/
theorem startup_credential_witness :
    mainStartup (fun _ => none) = StartupResult.exited 1
      "Error: NOTION_TOKEN environment variable not set" ∧
    mainStartup (fun _ => some "secret") =
      StartupResult.started (mkServer "secret") :=
  ⟨((startup_credential (fun _ => none) "secret").1 (Or.inl rfl)).1,
   ((startup_credential (fun _ => some "secret") "secret").2 rfl
      (by decide)).1⟩

/-- C10: the `query_database` payload has a `"filter"` key exactly when
the supplied filter is a non-empty mapping and a `"sorts"` key exactly
when the supplied sorts is a non-empty sequence; an empty mapping or
empty list is omitted exactly as if the argument were absent (`None`). -/
theorem query_database_optional_args (srv : NotionMCPServer)
    (dbid fo so : Json) (kvs : List (String × Json)) (xs : List Json)
    (hf : fo = Json.null ∨ fo = Json.obj kvs)
    (hs : so = Json.null ∨ so = Json.arr xs) :
    ∃ payload,
      (srv.queryDatabaseReq dbid fo so).body = some (Json.obj payload) ∧
      (("filter" ∈ payload.map Prod.fst) ↔ (fo = Json.obj kvs ∧ kvs ≠ [])) ∧
      (("sorts" ∈ payload.map Prod.fst) ↔ (so = Json.arr xs ∧ xs ≠ [])) ∧
      srv.queryDatabaseReq dbid (Json.obj []) so =
        srv.queryDatabaseReq dbid Json.null so ∧
      srv.queryDatabaseReq dbid fo (Json.arr []) =
        srv.queryDatabaseReq dbid fo Json.null := by
  rcases hf with hf | hf <;> rcases hs with hs | hs <;> subst hf <;> subst hs
  · exact ⟨[], rfl, by simp, by simp, rfl, rfl⟩
  · cases xs with
    | nil => exact ⟨[], rfl, by simp, by simp, rfl, rfl⟩
    | cons x xs =>
      exact ⟨[("sorts", Json.arr (x :: xs))], rfl, by simp,
        by simp [jlookup], rfl, rfl⟩
  · cases kvs with
    | nil => exact ⟨[], rfl, by simp, by simp, rfl, rfl⟩
    | cons kv kvs =>
      exact ⟨[("filter", Json.obj (kv :: kvs))], rfl, by simp,
        by simp, rfl, rfl⟩
  · cases kvs with
    | nil =>
      cases xs with
      | nil => exact ⟨[], rfl, by simp, by simp, rfl, rfl⟩
      | cons x xs =>
        exact ⟨[("sorts", Json.arr (x :: xs))], rfl, by simp, by simp,
          rfl, rfl⟩
    | cons kv kvs =>
      cases xs with
      | nil =>
        exact ⟨[("filter", Json.obj (kv :: kvs))], rfl, by simp, by simp,
          rfl, rfl⟩
      | cons x xs =>
        exact ⟨[("filter", Json.obj (kv :: kvs)),
                ("sorts", Json.arr (x :: xs))], rfl, by simp, by simp,
          rfl, rfl⟩

/-- C10 witness: a non-empty filter mapping together with an empty sorts
list — the filter key is present, the sorts key is omitted. -/
theorem query_database_optional_args_witness :
    ∃ payload,
      ((mkServer "t").queryDatabaseReq (Json.str "db")
          (Json.obj [("property", Json.str "Done")])
          (Json.arr [])).body = some (Json.obj payload) ∧
      (("filter" ∈ payload.map Prod.fst) ↔
        (Json.obj [("property", Json.str "Done")] =
          Json.obj [("property", Json.str "Done")] ∧
         [(("property" : String), Json.str "Done")] ≠ [])) ∧
      (("sorts" ∈ payload.map Prod.fst) ↔
        (Json.arr [] = Json.arr ([] : List Json) ∧ ([] : List Json) ≠ [])) ∧
      (mkServer "t").queryDatabaseReq (Json.str "db") (Json.obj [])
          (Json.arr []) =
        (mkServer "t").queryDatabaseReq (Json.str "db") Json.null
          (Json.arr []) ∧
      (mkServer "t").queryDatabaseReq (Json.str "db")
          (Json.obj [("property", Json.str "Done")]) (Json.arr []) =
        (mkServer "t").queryDatabaseReq (Json.str "db")
          (Json.obj [("property", Json.str "Done")]) Json.null :=
  query_database_optional_args (mkServer "t") (Json.str "db")
    (Json.obj [("property", Json.str "Done")]) (Json.arr [])
    [("property", Json.str "Done")] [] (Or.inr rfl) (Or.inr rfl)

/-- The `create_page` dispatch, for an argument mapping with or without
the optional `properties` entry: the built body is the parent reference
plus the generated title property updated with the caller mapping (an
absent argument and an empty mapping both leave the title untouched). -/
theorem create_page_dispatch_eq (srv : NotionMCPServer) (P T : String)
    (po : Option (List (String × Json))) :
    dispatch srv "create_page"
        ([("parent_id", Json.str P), ("title", Json.str T)] ++
          (match po with
           | none => []
           | some props => [("properties", Json.obj props)])) =
      Except.ok
        { method := .post, endpoint := .pages,
          body := some (Json.obj
            [("parent", Json.obj [("page_id", Json.str P)]),
             ("properties", Json.obj
               (dictUpdate [("title", genTitleProp (Json.str T))]
                 (po.getD [])))]),
          headers := srv.headers } := by
  cases po with
  | none => rfl
  | some props => cases props with
    | nil => rfl
    | cons kv kvs => rfl


/-- C3: the `create_page` body puts the parent reference at
`parent.page_id` and the generated title at
`properties.title.title[0].text.content`; a caller-supplied properties
mapping is merged entry by entry alongside the generated title, which is
replaced only when the caller mapping itself carries the key
`"title"`. -/
theorem create_page_body (srv : NotionMCPServer) (P T : String)
    (po : Option (List (String × Json)))
    (hnd : ((po.getD []).map Prod.fst).Nodup) :
    ∃ req body,
      dispatch srv "create_page"
        ([("parent_id", Json.str P), ("title", Json.str T)] ++
          (match po with
           | none => []
           | some props => [("properties", Json.obj props)])) =
        Except.ok req ∧
      req.body = some body ∧
      (body.getKey "parent").bind (fun p => p.getKey "page_id") =
        some (Json.str P) ∧
      ("title" ∉ (po.getD []).map Prod.fst →
        (((((body.getKey "properties").bind
            (fun p => p.getKey "title")).bind
            (fun t0 => t0.getKey "title")).bind Json.first).bind
            (fun e0 => e0.getKey "text")).bind
            (fun t1 => t1.getKey "content") = some (Json.str T)) ∧
      (∀ k v, (k, v) ∈ po.getD [] →
        (body.getKey "properties").bind (fun p => p.getKey k) = some v) := by
  have houter : ∀ D : List (String × Json),
      (Json.obj [("parent", Json.obj [("page_id", Json.str P)]),
                 ("properties", Json.obj D)]).getKey "properties" =
        some (Json.obj D) := fun D => rfl
  refine ⟨_, _, create_page_dispatch_eq srv P T po, rfl, rfl, ?_, ?_⟩
  · intro hnot
    have h2 : (Json.obj (dictUpdate
        [("title", genTitleProp (Json.str T))] (po.getD []))).getKey
        "title" = some (genTitleProp (Json.str T)) := by
      show jlookup (dictUpdate
        [("title", genTitleProp (Json.str T))] (po.getD [])) "title" = _
      rw [jlookup_dictUpdate_notMem _ _ _ hnot]; rfl
    rw [houter, Option.some_bind, h2]
    rfl
  · intro k v hmem
    have h2 : (Json.obj (dictUpdate
        [("title", genTitleProp (Json.str T))] (po.getD []))).getKey k =
        some v := by
      show jlookup (dictUpdate
        [("title", genTitleProp (Json.str T))] (po.getD [])) k = _
      exact jlookup_dictUpdate_mem _ _ _ _ hnd hmem
    rw [houter, Option.some_bind, h2]

/-- C3 witness: creating a page with parent `"P"`, title `"T"` and an
extra `Status` property — the parent reference, the generated title
content and the merged caller entry are all in place. -/
theorem create_page_body_witness :
    ∃ req body,
      dispatch (mkServer "t") "create_page"
        ([("parent_id", Json.str "P"), ("title", Json.str "T")] ++
          [("properties", Json.obj [("Status", Json.str "done")])]) =
        Except.ok req ∧
      req.body = some body ∧
      (body.getKey "parent").bind (fun p => p.getKey "page_id") =
        some (Json.str "P") ∧
      ("title" ∉ ([(("Status" : String), Json.str "done")]).map Prod.fst →
        (((((body.getKey "properties").bind
            (fun p => p.getKey "title")).bind
            (fun t0 => t0.getKey "title")).bind Json.first).bind
            (fun e0 => e0.getKey "text")).bind
            (fun t1 => t1.getKey "content") = some (Json.str "T")) ∧
      (∀ k v, (k, v) ∈ [(("Status" : String), Json.str "done")] →
        (body.getKey "properties").bind (fun p => p.getKey k) = some v) :=
  create_page_body (mkServer "t") "P" "T"
    (some [("Status", Json.str "done")]) (by decide)

/-- C4: when the first required argument of the invoked operation (in
evaluation order) is missing from the argument mapping, the handler
returns a `KeyError` failure Result whose message is the quoted missing
key, and no HTTP request is issued. -/
theorem missing_required_argument (srv : NotionMCPServer)
    (u : Request → UpstreamOutcome) (name : String)
    (args : List (String × Json)) (k : String)
    (hk : (reqKeys name).find? (fun k2 => (jlookup args k2).isNone) =
      some k) :
    dispatch srv name args = Except.error (Exc.keyError k) ∧
    call_tool srv u name args =
      [{ type := "text", text := dumps (errJson (Exc.keyError k)) }] ∧
    requestsIssued srv name args = [] ∧
    excStr (Exc.keyError k) = "'" ++ k ++ "'" ∧
    excName (Exc.keyError k) = "KeyError" := by
  have main : dispatch srv name args = Except.error (Exc.keyError k) := by
    by_cases h1 : name = "search_notion"
    · subst h1
      rw [show reqKeys "search_notion" = [] from rfl] at hk
      simp [List.find?] at hk
    · by_cases h2 : name = "get_page"
      · subst h2
        rw [show reqKeys "get_page" = ["page_id"] from rfl] at hk
        cases hjl : jlookup args "page_id" with
        | some v => simp [List.find?, hjl] at hk
        | none =>
          simp [List.find?, hjl] at hk
          subst hk
          simp [dispatch, argReq, hjl, Except.map]
      · by_cases h3 : name = "create_page"
        · subst h3
          rw [show reqKeys "create_page" = ["parent_id", "title"]
            from rfl] at hk
          cases hjl : jlookup args "parent_id" with
          | none =>
            simp [List.find?, hjl] at hk
            subst hk
            simp [dispatch, argReq, hjl, bind, Except.bind]
          | some v1 =>
            cases hjl2 : jlookup args "title" with
            | none =>
              simp [List.find?, hjl, hjl2] at hk
              subst hk
              simp [dispatch, argReq, hjl, hjl2, bind, Except.bind]
            | some v2 => simp [List.find?, hjl, hjl2] at hk
        · by_cases h4 : name = "update_page"
          · subst h4
            rw [show reqKeys "update_page" = ["page_id", "properties"]
              from rfl] at hk
            cases hjl : jlookup args "page_id" with
            | none =>
              simp [List.find?, hjl] at hk
              subst hk
              simp [dispatch, argReq, hjl, bind, Except.bind]
            | some v1 =>
              cases hjl2 : jlookup args "properties" with
              | none =>
                simp [List.find?, hjl, hjl2] at hk
                subst hk
                simp [dispatch, argReq, hjl, hjl2, bind, Except.bind]
              | some v2 => simp [List.find?, hjl, hjl2] at hk
          · by_cases h5 : name = "query_database"
            · subst h5
              rw [show reqKeys "query_database" = ["database_id"]
                from rfl] at hk
              cases hjl : jlookup args "database_id" with
              | some v => simp [List.find?, hjl] at hk
              | none =>
                simp [List.find?, hjl] at hk
                subst hk
                simp [dispatch, argReq, hjl, Except.map]
            · by_cases h6 : name = "get_block_children"
              · subst h6
                rw [show reqKeys "get_block_children" = ["block_id"]
                  from rfl] at hk
                cases hjl : jlookup args "block_id" with
                | some v => simp [List.find?, hjl] at hk
                | none =>
                  simp [List.find?, hjl] at hk
                  subst hk
                  simp [dispatch, argReq, hjl, Except.map]
              · by_cases h7 : name = "append_blocks"
                · subst h7
                  rw [show reqKeys "append_blocks" = ["block_id", "blocks"]
                    from rfl] at hk
                  cases hjl : jlookup args "block_id" with
                  | none =>
                    simp [List.find?, hjl] at hk
                    subst hk
                    simp [dispatch, argReq, hjl, bind, Except.bind]
                  | some v1 =>
                    cases hjl2 : jlookup args "blocks" with
                    | none =>
                      simp [List.find?, hjl, hjl2] at hk
                      subst hk
                      simp [dispatch, argReq, hjl, hjl2, bind, Except.bind]
                    | some v2 => simp [List.find?, hjl, hjl2] at hk
                · have hrk : reqKeys name = [] := by
                    simp [reqKeys, h1, h2, h3, h4, h5, h6, h7]
                  rw [hrk] at hk
                  simp [List.find?] at hk
  refine ⟨main, ?_, ?_, rfl, rfl⟩
  · exact (call_tool_of_dispatch_error srv u name args _ main).1
  · exact (call_tool_of_dispatch_error srv u name args _ main).2

/-- C4 witness: `get_page` with an empty argument mapping fails with
`KeyError` naming `page_id`, issuing no request. -/
theorem missing_required_argument_witness :
    dispatch (mkServer "t") "get_page" [] =
      Except.error (Exc.keyError "page_id") ∧
    call_tool (mkServer "t") (fun _ => UpstreamOutcome.success Json.null)
        "get_page" [] =
      [{ type := "text",
         text := dumps (errJson (Exc.keyError "page_id")) }] ∧
    requestsIssued (mkServer "t") "get_page" [] = [] ∧
    excStr (Exc.keyError "page_id") = "'" ++ "page_id" ++ "'" ∧
    excName (Exc.keyError "page_id") = "KeyError" :=
  missing_required_argument (mkServer "t")
    (fun _ => UpstreamOutcome.success Json.null) "get_page" [] "page_id"
    (by decide)

/-- C6: once dispatch has built the request, a non-2xx upstream status is
reported as an `HTTPStatusError` failure Result whose message contains
the status code and the response body text, while a transport-level
failure is reported under the raising exception's own class name with
the transport message — distinguishable from the HTTP case by the
Result's `type` field. -/
theorem upstream_failure_reporting (srv : NotionMCPServer)
    (u : Request → UpstreamOutcome) (name : String)
    (args : List (String × Json)) (req : Request)
    (hd : dispatch srv name args = Except.ok req) :
    (∀ s b, u req = UpstreamOutcome.httpError s b →
      call_tool srv u name args =
        [{ type := "text",
           text := dumps (errJson (Exc.httpStatusError s b)) }] ∧
      excName (Exc.httpStatusError s b) = "HTTPStatusError" ∧
      (∃ p q, excStr (Exc.httpStatusError s b) =
        p ++ String.mk (natChars s) ++ q) ∧
      (∃ p, excStr (Exc.httpStatusError s b) = p ++ b)) ∧
    (∀ kind m, u req = UpstreamOutcome.netError kind m →
      call_tool srv u name args =
        [{ type := "text",
           text := dumps (errJson (Exc.transportError kind m)) }] ∧
      excName (Exc.transportError kind m) = kind ∧
      excStr (Exc.transportError kind m) = m ∧
      (kind ≠ "HTTPStatusError" → ∀ s b,
        excName (Exc.transportError kind m) ≠
          excName (Exc.httpStatusError s b))) := by
  constructor
  · intro s b hu
    refine ⟨by simp [call_tool, performRequest, hd, hu], rfl, ?_, ?_⟩
    · exact ⟨"HTTP error ", ": " ++ b, by
        simp [excStr, String.append_assoc]⟩
    · exact ⟨"HTTP error " ++ String.mk (natChars s) ++ ": ", by
        simp [excStr, String.append_assoc]⟩
  · intro kind m hu
    refine ⟨by simp [call_tool, performRequest, hd, hu], rfl, rfl, ?_⟩
    intro hne s b
    simpa [excName] using hne

/-- C6 witness: a 404 with body `not found` on `get_page` is reported as
`HTTPStatusError`; a read timeout on the same request is reported under
`ReadTimeout`. -/
theorem upstream_failure_reporting_witness :
    call_tool (mkServer "t") (fun _ => UpstreamOutcome.httpError 404 "not found")
        "get_page" [("page_id", Json.str "p1")] =
      [{ type := "text",
         text := dumps (errJson (Exc.httpStatusError 404 "not found")) }] ∧
    call_tool (mkServer "t") (fun _ => UpstreamOutcome.netError "ReadTimeout" "timed out")
        "get_page" [("page_id", Json.str "p1")] =
      [{ type := "text",
         text := dumps (errJson (Exc.transportError "ReadTimeout" "timed out")) }] ∧
    excName (Exc.transportError "ReadTimeout" "timed out") ≠
      excName (Exc.httpStatusError 404 "not found") :=
  ⟨((upstream_failure_reporting (mkServer "t")
      (fun _ => UpstreamOutcome.httpError 404 "not found") "get_page"
      [("page_id", Json.str "p1")] _ rfl).1 404 "not found" rfl).1,
   ((upstream_failure_reporting (mkServer "t")
      (fun _ => UpstreamOutcome.netError "ReadTimeout" "timed out") "get_page"
      [("page_id", Json.str "p1")] _ rfl).2 "ReadTimeout" "timed out" rfl).1,
   (((upstream_failure_reporting (mkServer "t")
      (fun _ => UpstreamOutcome.netError "ReadTimeout" "timed out") "get_page"
      [("page_id", Json.str "p1")] _ rfl).2 "ReadTimeout" "timed out"
      rfl).2.2.2 (by decide) 404 "not found")⟩

/-! ### Round-trip groundwork: characters and digits -/

theorem toNat_ofNat_valid (m : Nat) (h : m.isValidChar) :
    (Char.ofNat m).toNat = m := by
  unfold Char.ofNat
  rw [dif_pos h]
  rfl

theorem toNat_ofNat_small (m : Nat) (h : m < 55296) :
    (Char.ofNat m).toNat = m :=
  toNat_ofNat_valid m (Or.inl h)

theorem char_ne_of_toNat_ne {c d : Char} (h : c.toNat ≠ d.toNat) :
    c ≠ d := fun he => h (he ▸ rfl)

theorem char_valid_ranges (c : Char) :
    c.toNat < 55296 ∨ (57344 ≤ c.toNat ∧ c.toNat < 1114112) := c.valid

theorem digitChar_toNat (k : Nat) (h : k < 10) :
    (digitChar k).toNat = 48 + k :=
  toNat_ofNat_small (48 + k) (by omega)

theorem isDig_digitChar (k : Nat) (h : k < 10) :
    isDig (digitChar k) = true := by
  simp only [isDig, digitChar_toNat k h, Bool.and_eq_true,
    decide_eq_true_eq]
  omega

theorem digitsVal_append_single (l : List Char) (c : Char) (a : Nat) :
    digitsVal (l ++ [c]) a = digitsVal l a * 10 + (c.toNat - 48) := by
  induction l generalizing a with
  | nil => simp [digitsVal]
  | cons c0 l ih => simp [digitsVal, ih]

theorem natCharsAux_spec (f : Nat) :
    ∀ n, n < f →
      natCharsAux f n ≠ [] ∧
      (∀ c ∈ natCharsAux f n, isDig c = true) ∧
      digitsVal (natCharsAux f n) 0 = n := by
  induction f with
  | zero => intro n h; omega
  | succ f ih =>
    intro n h
    by_cases h10 : n < 10
    · refine ⟨by simp [natCharsAux, h10], ?_, ?_⟩
      · simpa [natCharsAux, h10] using isDig_digitChar n h10
      · simp [natCharsAux, h10, digitsVal, digitChar_toNat n h10]
    · have hrec := ih (n / 10) (by omega)
      refine ⟨by simp [natCharsAux, h10], ?_, ?_⟩
      · intro c hc
        simp only [natCharsAux, if_neg h10, List.mem_append,
          List.mem_singleton] at hc
        rcases hc with hc | hc
        · exact hrec.2.1 c hc
        · subst hc; exact isDig_digitChar _ (by omega)
      · simp only [natCharsAux, if_neg h10]
        rw [digitsVal_append_single, hrec.2.2,
          digitChar_toNat _ (by omega)]
        omega

theorem natChars_spec (n : Nat) :
    natChars n ≠ [] ∧ (∀ c ∈ natChars n, isDig c = true) ∧
    digitsVal (natChars n) 0 = n :=
  natCharsAux_spec (n + 1) n (by omega)

/-- The suffix following a printed value must not begin with a digit
(otherwise the number parser would keep consuming); every separator the
printer emits after a value satisfies this. -/
def safeRest : List Char → Prop
  | [] => True
  | c :: _ => isDig c = false

theorem takeWhile_all_append (p : Char → Bool) (l rest : List Char)
    (hall : ∀ c ∈ l, p c = true)
    (hrest : match rest with | [] => True | c :: _ => p c = false) :
    (l ++ rest).takeWhile p = l ∧ (l ++ rest).dropWhile p = rest := by
  induction l with
  | nil =>
    cases rest with
    | nil => simp
    | cons c r => simp [List.takeWhile, List.dropWhile, hrest]
  | cons c l ih =>
    have hc := hall c (by simp)
    have ihh := ih (fun c2 h2 => hall c2 (by simp [h2]))
    simp [List.takeWhile, List.dropWhile, hc, ihh.1, ihh.2]

theorem parseNatNum_natChars (n : Nat) (rest : List Char)
    (hrest : safeRest rest) :
    parseNatNum (natChars n ++ rest) = some (n, rest) := by
  obtain ⟨hne, hdig, hval⟩ := natChars_spec n
  have htd := takeWhile_all_append isDig (natChars n) rest hdig
    (by cases rest with
        | nil => trivial
        | cons c r => exact hrest)
  unfold parseNatNum
  rw [htd.1, htd.2]
  cases hnc : natChars n with
  | nil => exact absurd hnc hne
  | cons c l =>
    rw [hnc] at hval
    simp [hval]

theorem parseNum_intChars (n : Int) (rest : List Char)
    (hrest : safeRest rest) :
    parseNum (intChars n ++ rest) = some (Json.num n, rest) := by
  by_cases hneg : n < 0
  · have hic : intChars n = '-' :: natChars n.natAbs := by
      simp [intChars, hneg]
    rw [hic]
    simp [parseNum, parseNatNum_natChars n.natAbs rest hrest,
      abs_of_nonpos (le_of_lt hneg)]
  · have hic : intChars n = natChars n.natAbs := by
      simp [intChars, hneg]
    obtain ⟨hne, hdig, hval⟩ := natChars_spec n.natAbs
    cases hnc : natChars n.natAbs with
    | nil => exact absurd hnc hne
    | cons c l =>
      have hcd : isDig c = true := hdig c (by rw [hnc]; simp)
      have hcne : c ≠ '-' := by
        refine char_ne_of_toNat_ne ?_
        have : ('-').toNat = 45 := by decide
        rw [this]
        simp only [isDig, Bool.and_eq_true, decide_eq_true_eq] at hcd
        omega
      rw [hic, hnc]
      simp only [List.cons_append, parseNum, if_neg hcne]
      rw [← List.cons_append, ← hnc, parseNatNum_natChars n.natAbs rest hrest]
      simp [abs_of_nonneg (le_of_not_lt hneg)]

/-! ### Round-trip groundwork: whitespace and parser congruence -/

theorem skipWs_cons_not_ws (c : Char) (l : List Char)
    (h : isWsC c = false) : skipWs (c :: l) = c :: l := by
  simp [skipWs, h]

theorem skipWs_cons_ws (c : Char) (l : List Char)
    (h : isWsC c = true) : skipWs (c :: l) = skipWs l := by
  simp [skipWs, h]

theorem skipWs_replicate_space (n : Nat) (l : List Char) :
    skipWs (List.replicate n ' ' ++ l) = skipWs l := by
  induction n with
  | zero => simp
  | succ n ih => simpa [List.replicate_succ, skipWs] using ih

theorem skipWs_indentC (d : Nat) (l : List Char) :
    skipWs (indentC d ++ l) = skipWs l :=
  skipWs_replicate_space (2 * d) l

theorem parseVal_congr (fuel : Nat) (cs1 cs2 : List Char)
    (h : skipWs cs1 = skipWs cs2) :
    parseVal fuel cs1 = parseVal fuel cs2 := by
  cases fuel with
  | zero => rfl
  | succ fuel => simp only [parseVal, h]

theorem parseItems_congr (fuel : Nat) (cs1 cs2 : List Char)
    (h : skipWs cs1 = skipWs cs2) :
    parseItems fuel cs1 = parseItems fuel cs2 := by
  cases fuel with
  | zero => rfl
  | succ fuel => simp only [parseItems, parseVal_congr fuel cs1 cs2 h]

/-! ### Round-trip groundwork: string escapes -/

theorem hexVal_hexDigitChar (k : Nat) (h : k < 16) :
    hexVal (hexDigitChar k) = some k := by
  by_cases h10 : k < 10
  · have ht : (hexDigitChar k).toNat = 48 + k := by
      simp only [hexDigitChar, if_pos h10]
      exact toNat_ofNat_small _ (by omega)
    simp only [hexVal, ht]
    rw [if_pos (by omega)]
    congr 1
    omega
  · have ht : (hexDigitChar k).toNat = 87 + k := by
      simp only [hexDigitChar, if_neg h10]
      exact toNat_ofNat_small _ (by omega)
    simp only [hexVal, ht]
    rw [if_neg (by omega), if_pos (by omega)]
    congr 1
    omega


/-! ### Round-trip groundwork: string escapes -/

theorem decodeEsc_u_eq (a b c1 d1 : Char) (rest : List Char) :
    decodeEsc ('u' :: a :: b :: c1 :: d1 :: rest) =
      match hexVal a, hexVal b, hexVal c1, hexVal d1 with
      | some ha, some hb, some hc, some hd =>
        let h := 4096 * ha + 256 * hb + 16 * hc + hd
        if h < 55296 ∨ 57344 ≤ h then some (Char.ofNat h, rest)
        else if h < 56320 then
          match rest with
          | '\x5c' :: 'u' :: a2 :: b2 :: c2 :: d2 :: rest2 =>
            match hexVal a2, hexVal b2, hexVal c2, hexVal d2 with
            | some la, some lb, some lc, some ld =>
              let l := 4096 * la + 256 * lb + 16 * lc + ld
              if 56320 ≤ l ∧ l < 57344 then
                some (Char.ofNat (65536 + 1024 * (h - 55296) + (l - 56320)),
                  rest2)
              else none
            | _, _, _, _ => none
          | _ => none
        else none
      | _, _, _, _ => none := rfl

theorem decodeEsc_hex_bmp (v : Nat) (hv : v < 65536)
    (hcond : v < 55296 ∨ 57344 ≤ v) (rest : List Char) :
    decodeEsc ('u' :: (hex4 v ++ rest)) = some (Char.ofNat v, rest) := by
  have harith : 4096 * (v / 4096 % 16) + 256 * (v / 256 % 16) +
      16 * (v / 16 % 16) + v % 16 = v := by omega
  simp only [hex4, List.cons_append, List.nil_append]
  rw [decodeEsc_u_eq,
    hexVal_hexDigitChar _ (by omega), hexVal_hexDigitChar _ (by omega),
    hexVal_hexDigitChar _ (by omega), hexVal_hexDigitChar _ (by omega)]
  simp only []
  rw [harith, if_pos hcond]

theorem decodeEsc_hex_pair_gen (A B : Nat) (hA1 : 55296 ≤ A)
    (hA2 : A < 56320) (hB1 : 56320 ≤ B) (hB2 : B < 57344)
    (rest : List Char) :
    decodeEsc ('u' :: (hex4 A ++ ('\x5c' :: 'u' :: (hex4 B ++ rest)))) =
      some (Char.ofNat (65536 + 1024 * (A - 55296) + (B - 56320)), rest) := by
  have harithA : 4096 * (A / 4096 % 16) + 256 * (A / 256 % 16) +
      16 * (A / 16 % 16) + A % 16 = A := by omega
  have harithB : 4096 * (B / 4096 % 16) + 256 * (B / 256 % 16) +
      16 * (B / 16 % 16) + B % 16 = B := by omega
  simp only [hex4, List.cons_append, List.nil_append]
  rw [decodeEsc_u_eq,
    hexVal_hexDigitChar _ (by omega), hexVal_hexDigitChar _ (by omega),
    hexVal_hexDigitChar _ (by omega), hexVal_hexDigitChar _ (by omega)]
  simp only []
  rw [harithA, if_neg (by omega : ¬(A < 55296 ∨ 57344 ≤ A)),
    if_pos (by omega : A < 56320)]
  rw [hexVal_hexDigitChar _ (by omega), hexVal_hexDigitChar _ (by omega),
    hexVal_hexDigitChar _ (by omega), hexVal_hexDigitChar _ (by omega)]
  simp only []
  rw [harithB, if_pos (by omega : 56320 ≤ B ∧ B < 57344)]

theorem decodeEsc_hex_pair (v : Nat) (hv1 : 65536 ≤ v)
    (hv2 : v < 1114112) (rest : List Char) :
    decodeEsc ('u' :: (hex4 (55296 + (v - 65536) / 1024) ++
      ('\x5c' :: 'u' :: (hex4 (56320 + (v - 65536) % 1024) ++ rest)))) =
      some (Char.ofNat v, rest) := by
  rw [decodeEsc_hex_pair_gen (55296 + (v - 65536) / 1024)
      (56320 + (v - 65536) % 1024) (by omega) (by omega) (by omega)
      (by omega) rest,
    show 65536 + 1024 * (55296 + (v - 65536) / 1024 - 55296) +
      (56320 + (v - 65536) % 1024 - 56320) = v from by omega]

theorem parseStrBody_quote_step (fuel : Nat) (rest : List Char) :
    parseStrBody (fuel + 1) ('\x22' :: rest) = some ([], rest) := rfl

theorem parseStrBody_esc_step (fuel : Nat) (X : List Char) (ch : Char)
    (r2 : List Char) (hd : decodeEsc X = some (ch, r2)) :
    parseStrBody (fuel + 1) ('\x5c' :: X) =
      (parseStrBody fuel r2).map fun p => (ch :: p.1, p.2) := by
  show (if ('\x5c' : Char) = '\x22' then some ([], X)
        else if ('\x5c' : Char) = '\x5c' then
          match decodeEsc X with
          | some (ch2, rest2) =>
            (parseStrBody fuel rest2).map fun p => (ch2 :: p.1, p.2)
          | none => none
        else (parseStrBody fuel X).map
          fun p => (('\x5c' : Char) :: p.1, p.2)) = _
  rw [if_neg (by decide), if_pos rfl, hd]

theorem parseStrBody_plain_step (fuel : Nat) (c : Char) (X : List Char)
    (h1 : c ≠ '\x22') (h2 : c ≠ '\x5c') :
    parseStrBody (fuel + 1) (c :: X) =
      (parseStrBody fuel X).map fun p => (c :: p.1, p.2) := by
  show (if c = '\x22' then some ([], X)
        else if c = '\x5c' then
          match decodeEsc X with
          | some (ch2, rest2) =>
            (parseStrBody fuel rest2).map fun p => (ch2 :: p.1, p.2)
          | none => none
        else (parseStrBody fuel X).map fun p => (c :: p.1, p.2)) = _
  rw [if_neg h1, if_neg h2]

theorem parseStrBody_escChar (fuel : Nat) (c : Char) (X s2 rest : List Char)
    (ih : parseStrBody fuel X = some (s2, rest)) :
    parseStrBody (fuel + 1) (escChar c ++ X) = some (c :: s2, rest) := by
  by_cases h1 : c = '\x22'
  · subst h1
    rw [show escChar '\x22' ++ X = '\x5c' :: ('\x22' :: X) from rfl,
      parseStrBody_esc_step fuel _ _ _ (rfl :
        decodeEsc ('\x22' :: X) = some ('\x22', X)), ih]
    rfl
  · by_cases h2 : c = '\x5c'
    · subst h2
      rw [show escChar '\x5c' ++ X = '\x5c' :: ('\x5c' :: X) from rfl,
        parseStrBody_esc_step fuel _ _ _ (rfl :
          decodeEsc ('\x5c' :: X) = some ('\x5c', X)), ih]
      rfl
    · by_cases h3 : c = '\n'
      · subst h3
        rw [show escChar '\n' ++ X = '\x5c' :: ('n' :: X) from rfl,
          parseStrBody_esc_step fuel _ _ _ (rfl :
            decodeEsc ('n' :: X) = some ('\n', X)), ih]
        rfl
      · by_cases h4 : c = '\r'
        · subst h4
          rw [show escChar '\r' ++ X = '\x5c' :: ('r' :: X) from rfl,
            parseStrBody_esc_step fuel _ _ _ (rfl :
              decodeEsc ('r' :: X) = some ('\r', X)), ih]
          rfl
        · by_cases h5 : c = '\t'
          · subst h5
            rw [show escChar '\t' ++ X = '\x5c' :: ('t' :: X) from rfl,
              parseStrBody_esc_step fuel _ _ _ (rfl :
                decodeEsc ('t' :: X) = some ('\t', X)), ih]
            rfl
          · by_cases h6 : c.toNat = 8
            · have hesc : escChar c = ['\x5c', 'b'] := by
                simp [escChar, h1, h2, h3, h4, h5, h6]
              rw [hesc,
                show ['\x5c', 'b'] ++ X = '\x5c' :: ('b' :: X) from rfl,
                parseStrBody_esc_step fuel _ _ _ (rfl :
                  decodeEsc ('b' :: X) = some (Char.ofNat 8, X)), ih,
                show Char.ofNat 8 = c from by
                  rw [← h6]; exact Char.ofNat_toNat c]
              rfl
            · by_cases h7 : c.toNat = 12
              · have hesc : escChar c = ['\x5c', 'f'] := by
                  simp [escChar, h1, h2, h3, h4, h5, h6, h7]
                rw [hesc,
                  show ['\x5c', 'f'] ++ X = '\x5c' :: ('f' :: X) from rfl,
                  parseStrBody_esc_step fuel _ _ _ (rfl :
                    decodeEsc ('f' :: X) = some (Char.ofNat 12, X)), ih,
                  show Char.ofNat 12 = c from by
                    rw [← h7]; exact Char.ofNat_toNat c]
                rfl
              · by_cases h8 : c.toNat < 32 ∨ 126 < c.toNat
                · have hvr := char_valid_ranges c
                  by_cases h9 : c.toNat < 65536
                  · have hcond : c.toNat < 55296 ∨ 57344 ≤ c.toNat := by
                      rcases hvr with hv | hv
                      · exact Or.inl hv
                      · exact Or.inr hv.1
                    have hesc : escChar c = '\x5c' :: 'u' :: hex4 c.toNat := by
                      simp [escChar, h1, h2, h3, h4, h5, h6, h7, h8, h9]
                    rw [hesc,
                      show ('\x5c' :: 'u' :: hex4 c.toNat) ++ X =
                        '\x5c' :: ('u' :: (hex4 c.toNat ++ X)) from rfl,
                      parseStrBody_esc_step fuel _ _ _
                        (decodeEsc_hex_bmp c.toNat h9 hcond X), ih,
                      Char.ofNat_toNat]
                    rfl
                  · have hlt : c.toNat < 1114112 := by
                      rcases hvr with hv | hv
                      · omega
                      · exact hv.2
                    have hesc : escChar c =
                        ('\x5c' :: 'u' :: hex4 (55296 + (c.toNat - 65536) / 1024)) ++
                        ('\x5c' :: 'u' :: hex4 (56320 + (c.toNat - 65536) % 1024)) := by
                      simp [escChar, h1, h2, h3, h4, h5, h6, h7, h8, h9]
                    rw [hesc,
                      show (('\x5c' :: 'u' :: hex4 (55296 + (c.toNat - 65536) / 1024)) ++
                          ('\x5c' :: 'u' :: hex4 (56320 + (c.toNat - 65536) % 1024))) ++ X =
                        '\x5c' :: ('u' :: (hex4 (55296 + (c.toNat - 65536) / 1024) ++
                          ('\x5c' :: 'u' :: (hex4 (56320 + (c.toNat - 65536) % 1024) ++ X))))
                        from by simp,
                      parseStrBody_esc_step fuel _ _ _
                        (decodeEsc_hex_pair c.toNat (by omega) hlt X), ih,
                      Char.ofNat_toNat]
                    rfl
                · have hesc : escChar c = [c] := by
                    simp [escChar, h1, h2, h3, h4, h5, h6, h7, h8]
                  rw [hesc, show [c] ++ X = c :: X from rfl,
                    parseStrBody_plain_step fuel c X h1 h2, ih]
                  rfl

theorem parseStrBody_escStr (s rest : List Char) :
    ∀ fuel, s.length < fuel →
      parseStrBody fuel (escStr s ++ '\x22' :: rest) = some (s, rest) := by
  induction s with
  | nil =>
    intro fuel hf
    cases fuel with
    | zero => omega
    | succ fuel => exact parseStrBody_quote_step fuel rest
  | cons c s ih =>
    intro fuel hf
    cases fuel with
    | zero => omega
    | succ fuel =>
      rw [show escStr (c :: s) = escChar c ++ escStr s from rfl,
        List.append_assoc]
      exact parseStrBody_escChar fuel c _ s rest
        (ih fuel (by simpa using Nat.lt_of_succ_lt_succ (by simpa using hf)))

/-! ### Round-trip groundwork: fuel accounting and head shapes -/

mutual

/-- Fuel needed by `parseVal` to consume the printed form of a value. -/
def cost : Json → Nat
  | .null => 1
  | .bool _ => 1
  | .num _ => 1
  | .str s => s.data.length + 2
  | .arr xs => 1 + costList xs
  | .obj kvs => 1 + costMembers kvs
termination_by j => sizeOf j

/-- Fuel needed by `parseItems` for the printed elements of an array. -/
def costList : List Json → Nat
  | [] => 0
  | x :: xs => cost x + 1 + costList xs
termination_by xs => sizeOf xs

/-- Fuel needed by `parseMembers` for the printed members of an object. -/
def costMembers : List (String × Json) → Nat
  | [] => 0
  | (k, v) :: kvs => k.data.length + 2 + cost v + 1 + costMembers kvs
termination_by kvs => sizeOf kvs

end

theorem cost_pos (j : Json) : 1 ≤ cost j := by
  cases j <;> simp [cost]

theorem digit_not_special (c : Char) (h : isDig c = true) :
    c ≠ 'n' ∧ c ≠ 't' ∧ c ≠ 'f' ∧ c ≠ '\x22' ∧ c ≠ '[' ∧ c ≠ '\x7b' ∧
    isWsC c = false ∧ c ≠ ']' ∧ c ≠ '\x7d' ∧ c ≠ '-' ∧ c ≠ ',' := by
  simp only [isDig, Bool.and_eq_true, decide_eq_true_eq] at h
  have hne : ∀ d : Char, c.toNat ≠ d.toNat → c ≠ d :=
    fun d hd => char_ne_of_toNat_ne hd
  refine ⟨hne 'n' (by simp only [show ('n').toNat = 110 from rfl]; omega),
    hne 't' (by simp only [show ('t').toNat = 116 from rfl]; omega),
    hne 'f' (by simp only [show ('f').toNat = 102 from rfl]; omega),
    hne '\x22' (by simp only [show ('\x22').toNat = 34 from rfl]; omega),
    hne '[' (by simp only [show ('[').toNat = 91 from rfl]; omega),
    hne '\x7b' (by simp only [show ('\x7b').toNat = 123 from rfl]; omega),
    ?_,
    hne ']' (by simp only [show (']').toNat = 93 from rfl]; omega),
    hne '\x7d' (by simp only [show ('\x7d').toNat = 125 from rfl]; omega),
    hne '-' (by simp only [show ('-').toNat = 45 from rfl]; omega),
    hne ',' (by simp only [show (',').toNat = 44 from rfl]; omega)⟩
  simp only [isWsC, Bool.or_eq_false_iff, beq_eq_false_iff_ne]
  exact ⟨⟨⟨hne ' ' (by simp only [show (' ').toNat = 32 from rfl]; omega),
    hne '\n' (by simp only [show ('\n').toNat = 10 from rfl]; omega)⟩,
    hne '\t' (by simp only [show ('\t').toNat = 9 from rfl]; omega)⟩,
    hne '\r' (by simp only [show ('\r').toNat = 13 from rfl]; omega)⟩

theorem intChars_head (n : Int) :
    ∃ c t, intChars n = c :: t ∧ isWsC c = false ∧ c ≠ ']' ∧
      c ≠ '\x7d' := by
  by_cases hneg : n < 0
  · exact ⟨'-', natChars n.natAbs, by simp [intChars, hneg], by decide,
      by decide, by decide⟩
  · obtain ⟨hne, hdig, _⟩ := natChars_spec n.natAbs
    cases hnc : natChars n.natAbs with
    | nil => exact absurd hnc hne
    | cons c l =>
      have hd := digit_not_special c (hdig c (by rw [hnc]; simp))
      exact ⟨c, l, by simp [intChars, hneg, hnc], hd.2.2.2.2.2.2.1,
        hd.2.2.2.2.2.2.2.1, hd.2.2.2.2.2.2.2.2.1⟩

theorem dumpsC_head (j : Json) (d : Nat) :
    ∃ c t, dumpsC j d = c :: t ∧ isWsC c = false ∧ c ≠ ']' ∧
      c ≠ '\x7d' := by
  cases j with
  | null =>
    exact ⟨'n', ['u', 'l', 'l'], by simp [dumpsC], by decide, by decide,
      by decide⟩
  | bool b =>
    cases b with
    | true =>
      exact ⟨'t', ['r', 'u', 'e'], by simp [dumpsC], by decide, by decide,
        by decide⟩
    | false =>
      exact ⟨'f', ['a', 'l', 's', 'e'], by simp [dumpsC], by decide,
        by decide, by decide⟩
  | num n =>
    obtain ⟨c, t, hct, h1, h2, h3⟩ := intChars_head n
    exact ⟨c, t, by simp [dumpsC, hct], h1, h2, h3⟩
  | str s =>
    exact ⟨'\x22', escStr s.data ++ ['\x22'], by simp [dumpsC], by decide,
      by decide, by decide⟩
  | arr xs =>
    cases xs with
    | nil =>
      exact ⟨'[', [']'], by simp [dumpsC], by decide, by decide, by decide⟩
    | cons x xs =>
      exact ⟨'[', '\n' :: (indentC (d + 1) ++
        (dumpsList x xs (d + 1) ++ '\n' :: (indentC d ++ [']']))),
        by simp [dumpsC], by decide, by decide, by decide⟩
  | obj kvs =>
    cases kvs with
    | nil =>
      exact ⟨'\x7b', ['\x7d'], by simp [dumpsC], by decide, by decide,
        by decide⟩
    | cons kv kvs =>
      exact ⟨'\x7b', '\n' :: (indentC (d + 1) ++
        (dumpsMembers kv kvs (d + 1) ++ '\n' :: (indentC d ++ ['\x7d']))),
        by simp [dumpsC], by decide, by decide, by decide⟩

theorem dumpsList_head (x : Json) (xs : List Json) (d : Nat) :
    ∃ c t, dumpsList x xs d = c :: t ∧ isWsC c = false ∧ c ≠ ']' ∧
      c ≠ '\x7d' := by
  obtain ⟨c, t, hct, h1, h2, h3⟩ := dumpsC_head x d
  cases xs with
  | nil => exact ⟨c, t, by simp [dumpsList, hct], h1, h2, h3⟩
  | cons y ys =>
    exact ⟨c, t ++ ',' :: '\n' :: (indentC d ++ dumpsList y ys d),
      by simp [dumpsList, hct], h1, h2, h3⟩

theorem dumpsMembers_head (kv : String × Json) (kvs : List (String × Json))
    (d : Nat) : ∃ t, dumpsMembers kv kvs d = '\x22' :: t := by
  obtain ⟨k, v⟩ := kv
  cases kvs with
  | nil =>
    exact ⟨escStr k.data ++ '\x22' :: ':' :: ' ' :: dumpsC v d,
      by simp [dumpsMembers]⟩
  | cons kv2 kvs2 =>
    exact ⟨escStr k.data ++ '\x22' :: ':' :: ' ' :: dumpsC v d ++
        ',' :: '\n' :: (indentC d ++ dumpsMembers kv2 kvs2 d),
      by simp [dumpsMembers]⟩

/-! ### Parser step lemmas (definitional unfoldings) -/

theorem tv_null (fuel : Nat) (r : List Char) :
    parseVal (fuel + 1) ('n' :: 'u' :: 'l' :: 'l' :: r) =
      some (Json.null, r) := rfl

theorem tv_true (fuel : Nat) (r : List Char) :
    parseVal (fuel + 1) ('t' :: 'r' :: 'u' :: 'e' :: r) =
      some (Json.bool true, r) := rfl

theorem tv_false (fuel : Nat) (r : List Char) :
    parseVal (fuel + 1) ('f' :: 'a' :: 'l' :: 's' :: 'e' :: r) =
      some (Json.bool false, r) := rfl

theorem tv_arr_nil (fuel : Nat) (r : List Char) :
    parseVal (fuel + 1) ('[' :: ']' :: r) = some (Json.arr [], r) := rfl

theorem tv_obj_nil (fuel : Nat) (r : List Char) :
    parseVal (fuel + 1) ('\x7b' :: '\x7d' :: r) =
      some (Json.obj [], r) := rfl

theorem tv_str (fuel : Nat) (R : List Char) :
    parseVal (fuel + 1) ('\x22' :: R) =
      (parseStrBody fuel R).map fun p => (Json.str (String.mk p.1), p.2) :=
  rfl

theorem tv_arr (fuel : Nat) (R : List Char) :
    parseVal (fuel + 1) ('[' :: R) =
      (match skipWs R with
       | [] => none
       | c2 :: r2 =>
         if c2 = ']' then some (Json.arr [], r2)
         else (parseItems fuel (c2 :: r2)).map fun p =>
           (Json.arr p.1, p.2)) := rfl

theorem tv_obj (fuel : Nat) (R : List Char) :
    parseVal (fuel + 1) ('\x7b' :: R) =
      (match skipWs R with
       | [] => none
       | c2 :: r2 =>
         if c2 = '\x7d' then some (Json.obj [], r2)
         else (parseMembers fuel (c2 :: r2)).map fun p =>
           (Json.obj p.1, p.2)) := rfl

theorem tv_step (fuel : Nat) (cs : List Char) :
    parseVal (fuel + 1) cs =
      (match skipWs cs with
       | [] => none
       | c :: rest =>
         if c = 'n' then
           match rest with
           | 'u' :: 'l' :: 'l' :: r => some (Json.null, r)
           | _ => none
         else if c = 't' then
           match rest with
           | 'r' :: 'u' :: 'e' :: r => some (Json.bool true, r)
           | _ => none
         else if c = 'f' then
           match rest with
           | 'a' :: 'l' :: 's' :: 'e' :: r => some (Json.bool false, r)
           | _ => none
         else if c = '\x22' then
           (parseStrBody fuel rest).map fun p =>
             (Json.str (String.mk p.1), p.2)
         else if c = '[' then
           match skipWs rest with
           | [] => none
           | c2 :: r2 =>
             if c2 = ']' then some (Json.arr [], r2)
             else (parseItems fuel (c2 :: r2)).map fun p =>
               (Json.arr p.1, p.2)
         else if c = '\x7b' then
           match skipWs rest with
           | [] => none
           | c2 :: r2 =>
             if c2 = '\x7d' then some (Json.obj [], r2)
             else (parseMembers fuel (c2 :: r2)).map fun p =>
               (Json.obj p.1, p.2)
         else parseNum (c :: rest)) := rfl

theorem ti_step (fuel : Nat) (cs : List Char) :
    parseItems (fuel + 1) cs =
      (match parseVal fuel cs with
       | none => none
       | some (x, r) =>
         match skipWs r with
         | [] => none
         | c :: r2 =>
           if c = ',' then (parseItems fuel r2).map fun p => (x :: p.1, p.2)
           else if c = ']' then some ([x], r2)
           else none) := rfl

theorem tm_step (fuel : Nat) (cs : List Char) :
    parseMembers (fuel + 1) cs =
      (match cs with
       | [] => none
       | c :: r0 =>
         if c = '\x22' then
           match parseStrBody fuel r0 with
           | none => none
           | some (k, r1) =>
             match skipWs r1 with
             | [] => none
             | c1 :: r2 =>
               if c1 = ':' then
                 match parseVal fuel r2 with
                 | none => none
                 | some (v, r3) =>
                   match skipWs r3 with
                   | [] => none
                   | c2 :: r4 =>
                     if c2 = ',' then
                       (parseMembers fuel (skipWs r4)).map fun p =>
                         ((String.mk k, v) :: p.1, p.2)
                     else if c2 = '\x7d' then some ([(String.mk k, v)], r4)
                     else none
               else none
         else none) := rfl

/-! ### The printer-parser round trip -/

theorem parse_rt (fuel : Nat) :
    (∀ j d rest, cost j ≤ fuel → safeRest rest →
      parseVal fuel (dumpsC j d ++ rest) = some (j, rest)) ∧
    (∀ x xs d d2 rest, costList (x :: xs) ≤ fuel →
      parseItems fuel
        (dumpsList x xs d ++ '\n' :: (indentC d2 ++ ']' :: rest)) =
        some (x :: xs, rest)) ∧
    (∀ kv kvs d d2 rest, costMembers (kv :: kvs) ≤ fuel →
      parseMembers fuel
        (dumpsMembers kv kvs d ++ '\n' :: (indentC d2 ++ '\x7d' :: rest)) =
        some (kv :: kvs, rest)) := by
  induction fuel with
  | zero =>
    refine ⟨?_, ?_, ?_⟩
    · intro j d rest hc _
      have := cost_pos j
      omega
    · intro x xs d d2 rest hc
      have := cost_pos x
      simp only [costList] at hc
      omega
    · intro kv kvs d d2 rest hc
      obtain ⟨k, v⟩ := kv
      have := cost_pos v
      simp only [costMembers] at hc
      omega
  | succ fuel ih =>
    obtain ⟨ihV, ihI, ihM⟩ := ih
    refine ⟨?_, ?_, ?_⟩
    · intro j d rest hc hsafe
      cases j with
      | null =>
        rw [show dumpsC Json.null d = ['n', 'u', 'l', 'l'] from
          by simp [dumpsC]]
        exact tv_null fuel rest
      | bool b =>
        cases b with
        | true =>
          rw [show dumpsC (Json.bool true) d = ['t', 'r', 'u', 'e'] from
            by simp [dumpsC]]
          exact tv_true fuel rest
        | false =>
          rw [show dumpsC (Json.bool false) d = ['f', 'a', 'l', 's', 'e']
            from by simp [dumpsC]]
          exact tv_false fuel rest
      | num n =>
        rw [show dumpsC (Json.num n) d = intChars n from by simp [dumpsC]]
        by_cases hneg : n < 0
        · rw [show intChars n = '-' :: natChars n.natAbs from
            by simp [intChars, hneg]]
          rw [show parseVal (fuel + 1)
              (('-' :: natChars n.natAbs) ++ rest) =
            parseNum (('-' :: natChars n.natAbs) ++ rest) from rfl]
          rw [show ('-' :: natChars n.natAbs : List Char) =
            intChars n from by simp [intChars, hneg]]
          exact parseNum_intChars n rest hsafe
        · have hic : intChars n = natChars n.natAbs := by
            simp [intChars, hneg]
          obtain ⟨hne0, hdig, _⟩ := natChars_spec n.natAbs
          cases hnc : natChars n.natAbs with
          | nil => exact absurd hnc hne0
          | cons c l =>
            have hd := digit_not_special c (hdig c (by rw [hnc]; simp))
            rw [hic, hnc, tv_step,
              show ((c :: l) ++ rest : List Char) = c :: (l ++ rest)
                from rfl,
              skipWs_cons_not_ws c _ hd.2.2.2.2.2.2.1]
            simp only []
            rw [if_neg hd.1, if_neg hd.2.1, if_neg hd.2.2.1,
              if_neg hd.2.2.2.1, if_neg hd.2.2.2.2.1,
              if_neg hd.2.2.2.2.2.1,
              show (c :: (l ++ rest) : List Char) = (c :: l) ++ rest
                from rfl, ← hnc, ← hic]
            exact parseNum_intChars n rest hsafe
      | str s =>
        rw [show dumpsC (Json.str s) d =
          '\x22' :: (escStr s.data ++ ['\x22']) from by simp [dumpsC]]
        rw [show (('\x22' :: (escStr s.data ++ ['\x22'])) ++ rest :
            List Char) =
          '\x22' :: (escStr s.data ++ '\x22' :: rest) from by simp]
        rw [tv_str]
        have hlen : s.data.length < fuel := by
          simp only [cost] at hc
          omega
        rw [parseStrBody_escStr s.data rest fuel hlen]
        rfl
      | arr xs =>
        cases xs with
        | nil =>
          rw [show dumpsC (Json.arr []) d = ['[', ']'] from
            by simp [dumpsC]]
          exact tv_arr_nil fuel rest
        | cons x xs2 =>
          rw [show dumpsC (Json.arr (x :: xs2)) d =
            '[' :: '\n' :: (indentC (d + 1) ++
              (dumpsList x xs2 (d + 1) ++ '\n' :: (indentC d ++ [']'])))
            from by simp [dumpsC]]
          rw [show (('[' :: '\n' :: (indentC (d + 1) ++
              (dumpsList x xs2 (d + 1) ++
                '\n' :: (indentC d ++ [']'])))) ++ rest : List Char) =
            '[' :: ('\n' :: (indentC (d + 1) ++
              (dumpsList x xs2 (d + 1) ++
                '\n' :: (indentC d ++ ']' :: rest)))) from by simp]
          rw [tv_arr]
          obtain ⟨c0, t0, hdl, hw0, hne1, hne2⟩ :=
            dumpsList_head x xs2 (d + 1)
          rw [show skipWs ('\n' :: (indentC (d + 1) ++
              (dumpsList x xs2 (d + 1) ++
                '\n' :: (indentC d ++ ']' :: rest)))) =
            skipWs (indentC (d + 1) ++
              (dumpsList x xs2 (d + 1) ++
                '\n' :: (indentC d ++ ']' :: rest))) from rfl,
            skipWs_indentC, hdl,
            show (((c0 :: t0) ++
              '\n' :: (indentC d ++ ']' :: rest)) : List Char) =
              c0 :: (t0 ++ '\n' :: (indentC d ++ ']' :: rest)) from rfl,
            skipWs_cons_not_ws c0 _ hw0]
          simp only []
          rw [if_neg hne1,
            show (c0 :: (t0 ++ '\n' :: (indentC d ++ ']' :: rest)) :
              List Char) =
              (c0 :: t0) ++ '\n' :: (indentC d ++ ']' :: rest) from rfl,
            ← hdl]
          have hcl : costList (x :: xs2) ≤ fuel := by
            simp only [cost] at hc
            omega
          rw [ihI x xs2 (d + 1) d rest hcl]
          rfl
      | obj kvs =>
        cases kvs with
        | nil =>
          rw [show dumpsC (Json.obj []) d = ['\x7b', '\x7d'] from
            by simp [dumpsC]]
          exact tv_obj_nil fuel rest
        | cons kv kvs2 =>
          rw [show dumpsC (Json.obj (kv :: kvs2)) d =
            '\x7b' :: '\n' :: (indentC (d + 1) ++
              (dumpsMembers kv kvs2 (d + 1) ++
                '\n' :: (indentC d ++ ['\x7d'])))
            from by simp [dumpsC]]
          rw [show (('\x7b' :: '\n' :: (indentC (d + 1) ++
              (dumpsMembers kv kvs2 (d + 1) ++
                '\n' :: (indentC d ++ ['\x7d'])))) ++ rest : List Char) =
            '\x7b' :: ('\n' :: (indentC (d + 1) ++
              (dumpsMembers kv kvs2 (d + 1) ++
                '\n' :: (indentC d ++ '\x7d' :: rest)))) from by simp]
          rw [tv_obj]
          obtain ⟨t0, hdm⟩ := dumpsMembers_head kv kvs2 (d + 1)
          rw [show skipWs ('\n' :: (indentC (d + 1) ++
              (dumpsMembers kv kvs2 (d + 1) ++
                '\n' :: (indentC d ++ '\x7d' :: rest)))) =
            skipWs (indentC (d + 1) ++
              (dumpsMembers kv kvs2 (d + 1) ++
                '\n' :: (indentC d ++ '\x7d' :: rest))) from rfl,
            skipWs_indentC, hdm,
            show ((('\x22' :: t0) ++
              '\n' :: (indentC d ++ '\x7d' :: rest)) : List Char) =
              '\x22' :: (t0 ++ '\n' :: (indentC d ++ '\x7d' :: rest))
              from rfl,
            skipWs_cons_not_ws '\x22' _ (by decide)]
          simp only []
          rw [if_neg (by decide : ¬('\x22' : Char) = '\x7d'),
            show ('\x22' :: (t0 ++
              '\n' :: (indentC d ++ '\x7d' :: rest)) : List Char) =
              ('\x22' :: t0) ++ '\n' :: (indentC d ++ '\x7d' :: rest)
              from rfl,
            ← hdm]
          have hcm : costMembers (kv :: kvs2) ≤ fuel := by
            simp only [cost] at hc
            omega
          rw [ihM kv kvs2 (d + 1) d rest hcm]
          rfl
    · intro x xs d d2 rest hc
      cases xs with
      | nil =>
        rw [show dumpsList x [] d = dumpsC x d from by simp [dumpsList]]
        rw [ti_step]
        have hcx : cost x ≤ fuel := by
          simp only [costList] at hc
          omega
        rw [ihV x d ('\n' :: (indentC d2 ++ ']' :: rest)) hcx rfl]
        simp only []
        rw [show skipWs ('\n' :: (indentC d2 ++ ']' :: rest)) =
          skipWs (indentC d2 ++ ']' :: rest) from rfl,
          skipWs_indentC, skipWs_cons_not_ws ']' rest (by decide)]
        simp
      | cons y ys =>
        rw [show dumpsList x (y :: ys) d = dumpsC x d ++
          ',' :: '\n' :: (indentC d ++ dumpsList y ys d) from
          by simp [dumpsList]]
        rw [show ((dumpsC x d ++
            ',' :: '\n' :: (indentC d ++ dumpsList y ys d)) ++
            '\n' :: (indentC d2 ++ ']' :: rest) : List Char) =
          dumpsC x d ++ (',' :: '\n' :: (indentC d ++
            (dumpsList y ys d ++ '\n' :: (indentC d2 ++ ']' :: rest))))
          from by simp]
        rw [ti_step]
        have hcx : cost x ≤ fuel := by
          simp only [costList] at hc
          omega
        rw [ihV x d (',' :: '\n' :: (indentC d ++
          (dumpsList y ys d ++ '\n' :: (indentC d2 ++ ']' :: rest))))
          hcx rfl]
        simp only []
        rw [skipWs_cons_not_ws ',' _ (by decide)]
        simp only []
        rw [if_true]
        rw [parseItems_congr fuel _ _
          (show skipWs ('\n' :: (indentC d ++
              (dumpsList y ys d ++ '\n' :: (indentC d2 ++ ']' :: rest)))) =
            skipWs (dumpsList y ys d ++
              '\n' :: (indentC d2 ++ ']' :: rest)) from by
            rw [show skipWs ('\n' :: (indentC d ++
                (dumpsList y ys d ++
                  '\n' :: (indentC d2 ++ ']' :: rest)))) =
              skipWs (indentC d ++ (dumpsList y ys d ++
                '\n' :: (indentC d2 ++ ']' :: rest))) from rfl,
              skipWs_indentC])]
        have hcy : costList (y :: ys) ≤ fuel := by
          simp only [costList] at hc ⊢
          have := cost_pos x
          omega
        rw [ihI y ys d d2 rest hcy]
        rfl
    · intro kv kvs d d2 rest hc
      obtain ⟨k, v⟩ := kv
      cases kvs with
      | nil =>
        rw [show dumpsMembers (k, v) [] d =
          '\x22' :: (escStr k.data ++ '\x22' :: ':' :: ' ' :: dumpsC v d)
          from by simp [dumpsMembers]]
        rw [show (('\x22' :: (escStr k.data ++
            '\x22' :: ':' :: ' ' :: dumpsC v d)) ++
            '\n' :: (indentC d2 ++ '\x7d' :: rest) : List Char) =
          '\x22' :: (escStr k.data ++ '\x22' :: (':' :: ' ' ::
            (dumpsC v d ++ '\n' :: (indentC d2 ++ '\x7d' :: rest))))
          from by simp]
        rw [tm_step]
        simp only []
        rw [if_true]
        have hklen : k.data.length < fuel := by
          simp only [costMembers] at hc
          omega
        rw [parseStrBody_escStr k.data _ fuel hklen]
        simp only []
        rw [skipWs_cons_not_ws ':' _ (by decide)]
        simp only []
        rw [if_true]
        rw [parseVal_congr fuel _ _
          (show skipWs (' ' :: (dumpsC v d ++
              '\n' :: (indentC d2 ++ '\x7d' :: rest))) =
            skipWs (dumpsC v d ++
              '\n' :: (indentC d2 ++ '\x7d' :: rest)) from rfl)]
        have hcv : cost v ≤ fuel := by
          simp only [costMembers] at hc
          omega
        rw [ihV v d ('\n' :: (indentC d2 ++ '\x7d' :: rest)) hcv rfl]
        simp only []
        rw [show skipWs ('\n' :: (indentC d2 ++ '\x7d' :: rest)) =
          skipWs (indentC d2 ++ '\x7d' :: rest) from rfl,
          skipWs_indentC, skipWs_cons_not_ws '\x7d' rest (by decide)]
        simp
      | cons kv2 kvs2 =>
        rw [show dumpsMembers (k, v) (kv2 :: kvs2) d =
          ('\x22' :: (escStr k.data ++
            '\x22' :: ':' :: ' ' :: dumpsC v d)) ++
          ',' :: '\n' :: (indentC d ++ dumpsMembers kv2 kvs2 d) from
          by simp [dumpsMembers]]
        rw [show ((('\x22' :: (escStr k.data ++
            '\x22' :: ':' :: ' ' :: dumpsC v d)) ++
            ',' :: '\n' :: (indentC d ++ dumpsMembers kv2 kvs2 d)) ++
            '\n' :: (indentC d2 ++ '\x7d' :: rest) : List Char) =
          '\x22' :: (escStr k.data ++ '\x22' :: (':' :: ' ' ::
            (dumpsC v d ++ (',' :: '\n' :: (indentC d ++
              (dumpsMembers kv2 kvs2 d ++
                '\n' :: (indentC d2 ++ '\x7d' :: rest)))))))
          from by simp]
        rw [tm_step]
        simp only []
        rw [if_true]
        have hklen : k.data.length < fuel := by
          simp only [costMembers] at hc
          omega
        rw [parseStrBody_escStr k.data _ fuel hklen]
        simp only []
        rw [skipWs_cons_not_ws ':' _ (by decide)]
        simp only []
        rw [if_true]
        rw [parseVal_congr fuel _ _
          (show skipWs (' ' :: (dumpsC v d ++ (',' :: '\n' ::
              (indentC d ++ (dumpsMembers kv2 kvs2 d ++
                '\n' :: (indentC d2 ++ '\x7d' :: rest)))))) =
            skipWs (dumpsC v d ++ (',' :: '\n' ::
              (indentC d ++ (dumpsMembers kv2 kvs2 d ++
                '\n' :: (indentC d2 ++ '\x7d' :: rest))))) from rfl)]
        have hcv : cost v ≤ fuel := by
          simp only [costMembers] at hc
          omega
        rw [ihV v d (',' :: '\n' :: (indentC d ++
          (dumpsMembers kv2 kvs2 d ++
            '\n' :: (indentC d2 ++ '\x7d' :: rest)))) hcv rfl]
        simp only []
        rw [skipWs_cons_not_ws ',' _ (by decide)]
        simp only []
        rw [if_true]
        obtain ⟨t2, hm2⟩ := dumpsMembers_head kv2 kvs2 d
        rw [show skipWs ('\n' :: (indentC d ++
            (dumpsMembers kv2 kvs2 d ++
              '\n' :: (indentC d2 ++ '\x7d' :: rest)))) =
          skipWs (indentC d ++ (dumpsMembers kv2 kvs2 d ++
            '\n' :: (indentC d2 ++ '\x7d' :: rest))) from rfl,
          skipWs_indentC, hm2,
          show ((('\x22' :: t2) ++
            '\n' :: (indentC d2 ++ '\x7d' :: rest)) : List Char) =
            '\x22' :: (t2 ++ '\n' :: (indentC d2 ++ '\x7d' :: rest))
            from rfl,
          skipWs_cons_not_ws '\x22' _ (by decide),
          show ('\x22' :: (t2 ++
            '\n' :: (indentC d2 ++ '\x7d' :: rest)) : List Char) =
            ('\x22' :: t2) ++ '\n' :: (indentC d2 ++ '\x7d' :: rest)
            from rfl,
          ← hm2]
        have hcm2 : costMembers (kv2 :: kvs2) ≤ fuel := by
          simp only [costMembers] at hc
          obtain ⟨k2, v2⟩ := kv2
          simp only [costMembers] at hc ⊢
          have := cost_pos v
          omega
        rw [ihM kv2 kvs2 d d2 rest hcm2]
        rfl

theorem escChar_length_pos (c : Char) : 1 ≤ (escChar c).length := by
  unfold escChar
  split_ifs <;> simp [hex4]

theorem escStr_length_ge (l : List Char) : l.length ≤ (escStr l).length := by
  induction l with
  | nil => simp [escStr]
  | cons c cs ih =>
    have := escChar_length_pos c
    simp only [escStr, List.length_append, List.length_cons]
    omega

theorem json_sizeOf_pos (j : Json) : 1 ≤ sizeOf j := by
  cases j <;> simp

theorem cost_le (n : Nat) :
    (∀ j d, sizeOf j ≤ n → cost j ≤ (dumpsC j d).length) ∧
    (∀ x xs d, sizeOf x + sizeOf xs ≤ n →
      costList (x :: xs) ≤ (dumpsList x xs d).length + 1) ∧
    (∀ k v kvs d, sizeOf v + sizeOf kvs ≤ n →
      costMembers ((k, v) :: kvs) ≤
        (dumpsMembers (k, v) kvs d).length + 1) := by
  induction n with
  | zero =>
    refine ⟨?_, ?_, ?_⟩
    · intro j d hsz
      have := json_sizeOf_pos j
      omega
    · intro x xs d hsz
      have := json_sizeOf_pos x
      omega
    · intro k v kvs d hsz
      have := json_sizeOf_pos v
      omega
  | succ n ih =>
    obtain ⟨ih1, ih2, ih3⟩ := ih
    refine ⟨?_, ?_, ?_⟩
    · intro j d hsz
      cases j with
      | null => simp [cost, dumpsC]
      | bool b => cases b <;> simp [cost, dumpsC]
      | num m =>
        obtain ⟨c, t, hct, _, _, _⟩ := intChars_head m
        simp [cost, dumpsC, hct]
      | str s =>
        have := escStr_length_ge s.data
        simp only [cost, dumpsC, List.length_cons, List.length_append,
          List.length_singleton]
        omega
      | arr xs =>
        cases xs with
        | nil => simp [cost, costList, dumpsC]
        | cons x xs2 =>
          have hx : sizeOf x + sizeOf xs2 ≤ n := by
            simp at hsz
            omega
          have h2 := ih2 x xs2 (d + 1) hx
          simp only [cost, dumpsC, List.length_cons, List.length_append]
          omega
      | obj kvs =>
        cases kvs with
        | nil => simp [cost, costMembers, dumpsC]
        | cons kv kvs2 =>
          obtain ⟨k, v⟩ := kv
          have hx : sizeOf v + sizeOf kvs2 ≤ n := by
            simp at hsz
            omega
          have h3 := ih3 k v kvs2 (d + 1) hx
          simp only [cost, dumpsC, List.length_cons, List.length_append]
          omega
    · intro x xs d hsz
      cases xs with
      | nil =>
        have hx : sizeOf x ≤ n := by
          simp at hsz
          omega
        have h1 := ih1 x d hx
        simp only [costList, dumpsList]
        omega
      | cons y ys =>
        have hx : sizeOf x ≤ n := by
          have := json_sizeOf_pos y
          simp at hsz
          omega
        have hy : sizeOf y + sizeOf ys ≤ n := by
          have := json_sizeOf_pos x
          simp at hsz
          omega
        have h1 := ih1 x d hx
        have h2 := ih2 y ys d hy
        simp only [costList] at h2
        simp only [costList, dumpsList, List.length_append,
          List.length_cons]
        omega
    · intro k v kvs d hsz
      cases kvs with
      | nil =>
        have hx : sizeOf v ≤ n := by
          simp at hsz
          omega
        have h1 := ih1 v d hx
        have := escStr_length_ge k.data
        simp only [costMembers, dumpsMembers, List.length_cons,
          List.length_append]
        omega
      | cons kv2 kvs2 =>
        obtain ⟨k2, v2⟩ := kv2
        have hx : sizeOf v ≤ n := by
          have := json_sizeOf_pos v2
          simp at hsz
          omega
        have hy : sizeOf v2 + sizeOf kvs2 ≤ n := by
          have := json_sizeOf_pos v
          simp at hsz
          omega
        have h1 := ih1 v d hx
        have h3 := ih3 k2 v2 kvs2 d hy
        simp only [costMembers] at h3
        have := escStr_length_ge k.data
        simp only [costMembers, dumpsMembers, List.length_cons,
          List.length_append]
        omega

theorem parse_dumps (j : Json) : parse (dumps j) = some j := by
  have hc : cost j ≤ (dumpsC j 0).length + 1 :=
    le_trans ((cost_le (sizeOf j)).1 j 0 le_rfl) (by omega)
  have h := (parse_rt ((dumpsC j 0).length + 1)).1 j 0 [] hc trivial
  rw [List.append_nil] at h
  unfold parse
  rw [show (dumps j).data = dumpsC j 0 from rfl,
    show (dumps j).length = (dumpsC j 0).length from rfl, h]
  rfl

/-- C8: when an invocation succeeds with a decoded upstream JSON body,
the Result is that body pretty-printed, and parsing the returned text
back as JSON recovers a value deep-equal to the body — the 2-space
indented serialization preserves source key order and loses no
information. -/
theorem result_roundtrip (srv : NotionMCPServer)
    (u : Request → UpstreamOutcome) (name : String)
    (args : List (String × Json)) (req : Request) (j : Json)
    (hd : dispatch srv name args = Except.ok req)
    (hs : u req = UpstreamOutcome.success j) :
    call_tool srv u name args = [{ type := "text", text := dumps j }] ∧
    parse (dumps j) = some j :=
  ⟨by simp [call_tool, performRequest, hd, hs], parse_dumps j⟩

/-- C8 witness: a nested body with every JSON shape — an object holding a
number, a string needing escapes, null, a boolean, a nested array and a
nested object — survives the round trip on a successful `get_page`. -/
theorem result_roundtrip_witness :
    call_tool (mkServer "t")
        (fun _ => UpstreamOutcome.success (Json.obj
          [("id", Json.str "p1"), ("n", Json.num (-7)),
           ("s", Json.str "a\"b\\c\nd"),
           ("x", Json.null), ("ok", Json.bool true),
           ("xs", Json.arr [Json.num 0, Json.obj []]),
           ("o", Json.obj [("k", Json.arr [])])]))
        "get_page" [("page_id", Json.str "p1")] =
      [{ type := "text", text := dumps (Json.obj
          [("id", Json.str "p1"), ("n", Json.num (-7)),
           ("s", Json.str "a\"b\\c\nd"),
           ("x", Json.null), ("ok", Json.bool true),
           ("xs", Json.arr [Json.num 0, Json.obj []]),
           ("o", Json.obj [("k", Json.arr [])])]) }] ∧
    parse (dumps (Json.obj
        [("id", Json.str "p1"), ("n", Json.num (-7)),
         ("s", Json.str "a\"b\\c\nd"),
         ("x", Json.null), ("ok", Json.bool true),
         ("xs", Json.arr [Json.num 0, Json.obj []]),
         ("o", Json.obj [("k", Json.arr [])])])) =
      some (Json.obj
        [("id", Json.str "p1"), ("n", Json.num (-7)),
         ("s", Json.str "a\"b\\c\nd"),
         ("x", Json.null), ("ok", Json.bool true),
         ("xs", Json.arr [Json.num 0, Json.obj []]),
         ("o", Json.obj [("k", Json.arr [])])]) :=
  result_roundtrip (mkServer "t") _ "get_page" [("page_id", Json.str "p1")]
    ((mkServer "t").getPageReq (Json.str "p1")) _ rfl rfl
